import Mathlib

/- Verification of the parachute descent simulator.

   Shallow embedding over the reals of the two core source files:
   src/src/physics.py (class PhysicsCalculator) and
   src/src/simulation.py (class ParachuteSimulation).

   Python floats are modelled as real numbers; numpy constants and
   functions (pi, radians, cos, sin, power) are modelled by the
   corresponding Mathlib functions on the reals. -/

namespace ParachuteSim

/-- Gravity constant g of PhysicsCalculator, in meters per second squared. -/
noncomputable def g : ℝ := 9.81

/-- Sea level air density rho0 of PhysicsCalculator. -/
noncomputable def rho0 : ℝ := 1.225

/-- Sea level temperature T0 of PhysicsCalculator, in kelvin. -/
noncomputable def T0 : ℝ := 288.15

/-- Temperature lapse rate L of PhysicsCalculator, in kelvin per meter. -/
noncomputable def L : ℝ := 0.0065

/-- Embedding of PhysicsCalculator.calculate_air_density.  The Python power
    operator on floats with a positive base is modelled by the real power
    function rpow. -/
noncomputable def calculate_air_density (altitude : ℝ) : ℝ :=
  let altitude := if altitude < 0 then 0 else altitude
  let temperature_ratio := 1 - L * altitude / T0
  if temperature_ratio ≤ 0 then 0.001
  else max (rho0 * temperature_ratio ^ (5.2561 : ℝ)) 0.001

/-- Embedding of PhysicsCalculator.calculate_drag_force. -/
noncomputable def calculate_drag_force (altitude velocity diameter drag_coefficient
    reefing_factor time_since_deployment inflation_time : ℝ) : ℝ :=
  if velocity ≤ 0 then 0
  else
    let rho := calculate_air_density altitude
    let area := Real.pi * (diameter / 2) ^ 2
    let base_drag := 0.5 * rho * velocity ^ 2 * drag_coefficient * area
    if time_since_deployment < inflation_time then
      let inflation_progress := time_since_deployment / inflation_time
      let effective_drag_coefficient :=
        reefing_factor + (1 - reefing_factor) * inflation_progress
      base_drag * effective_drag_coefficient
    else
      base_drag

/-- Embedding of PhysicsCalculator.calculate_inflation_time. -/
noncomputable def calculate_inflation_time (n_factor diameter velocity : ℝ) : ℝ :=
  if velocity ≤ 0 then 0
  else max (n_factor * diameter / velocity) 0.1

/-- Unfolded form of calculate_air_density, convenient for rewriting. -/
lemma calculate_air_density_eq (a : ℝ) :
    calculate_air_density a =
      if 1 - L * (if a < 0 then 0 else a) / T0 ≤ 0 then 0.001
      else max (rho0 * (1 - L * (if a < 0 then 0 else a) / T0) ^ (5.2561 : ℝ)) 0.001 :=
  rfl

/-- Unfolded form of calculate_drag_force, convenient for rewriting. -/
lemma calculate_drag_force_eq (alt v D Cd r t I : ℝ) :
    calculate_drag_force alt v D Cd r t I =
      if v ≤ 0 then 0
      else if t < I then
        0.5 * calculate_air_density alt * v ^ 2 * Cd * (Real.pi * (D / 2) ^ 2) *
          (r + (1 - r) * (t / I))
      else 0.5 * calculate_air_density alt * v ^ 2 * Cd * (Real.pi * (D / 2) ^ 2) :=
  rfl

/-- The density returned by calculate_air_density is at least the floor value. -/
lemma air_density_ge (a : ℝ) : 0.001 ≤ calculate_air_density a := by
  rw [calculate_air_density_eq]
  set b : ℝ := if a < 0 then 0 else a with hb
  by_cases h : 1 - L * b / T0 ≤ 0
  · rw [if_pos h]
  · rw [if_neg h]
    exact le_max_right _ _

/-- The density returned by calculate_air_density is positive. -/
lemma air_density_pos (a : ℝ) : 0 < calculate_air_density a :=
  lt_of_lt_of_le (by norm_num) (air_density_ge a)

/-- In the altitude band of claim C7 the temperature ratio is positive. -/
lemma temperature_ratio_pos {a : ℝ} (h : a ≤ 44000) : 0 < 1 - L * a / T0 := by
  have h1 : L * a ≤ 286 := by unfold L; nlinarith
  have h2 : L * a / T0 < 1 := by
    rw [div_lt_one (by unfold T0; norm_num)]
    unfold T0
    linarith
  linarith

/-- Claim C8: calculate_air_density is total.  For every real altitude input,
    including negative altitudes and implausibly high ones, it returns a
    positive value that is at least the floor of 0.001 kilograms per cubic
    meter. -/
theorem air_density_total_C8 (a : ℝ) :
    0.001 ≤ calculate_air_density a ∧ 0 < calculate_air_density a :=
  ⟨air_density_ge a, air_density_pos a⟩

/-- Claim C7: calculate_air_density is non increasing in altitude on the band
    from 0 to 44000 meters. -/
theorem air_density_antitone_C7 (a1 a2 : ℝ) (h0 : 0 ≤ a1) (h12 : a1 ≤ a2)
    (h4 : a2 ≤ 44000) :
    calculate_air_density a2 ≤ calculate_air_density a1 := by
  have h0' : (0 : ℝ) ≤ a2 := le_trans h0 h12
  have hr2 : 0 < 1 - L * a2 / T0 := temperature_ratio_pos h4
  have hr1 : 0 < 1 - L * a1 / T0 := temperature_ratio_pos (le_trans h12 h4)
  have hmono : 1 - L * a2 / T0 ≤ 1 - L * a1 / T0 := by
    have hL : L * a1 ≤ L * a2 := by unfold L; linarith
    have hdiv : L * a1 / T0 ≤ L * a2 / T0 :=
      (div_le_div_right (by unfold T0; norm_num)).mpr hL
    linarith
  rw [calculate_air_density_eq, calculate_air_density_eq]
  rw [if_neg (not_lt.mpr h0'), if_neg (not_lt.mpr h0)]
  rw [if_neg (not_le.mpr hr2), if_neg (not_le.mpr hr1)]
  refine max_le_max ?_ le_rfl
  refine mul_le_mul_of_nonneg_left ?_ (by norm_num [rho0])
  exact Real.rpow_le_rpow (le_of_lt hr2) hmono (by norm_num)

/-- Witness for claim C7 at concrete altitudes 0 and 1000. -/
theorem air_density_antitone_C7_witness :
    (0 : ℝ) ≤ 0 ∧ (0 : ℝ) ≤ 1000 ∧ (1000 : ℝ) ≤ 44000 ∧
      calculate_air_density 1000 ≤ calculate_air_density 0 :=
  ⟨le_rfl, by norm_num, by norm_num,
    air_density_antitone_C7 0 1000 le_rfl (by norm_num) (by norm_num)⟩

/-- The base drag force expression of calculate_drag_force is nonnegative when
    the drag coefficient is nonnegative. -/
lemma base_drag_nonneg (alt v Cd D : ℝ) (hCd : 0 ≤ Cd) :
    0 ≤ 0.5 * calculate_air_density alt * v ^ 2 * Cd * (Real.pi * (D / 2) ^ 2) := by
  have h1 : (0 : ℝ) ≤ 0.5 * calculate_air_density alt :=
    mul_nonneg (by norm_num) (le_of_lt (air_density_pos alt))
  have h2 : (0 : ℝ) ≤ Real.pi * (D / 2) ^ 2 :=
    mul_nonneg (le_of_lt Real.pi_pos) (sq_nonneg _)
  exact mul_nonneg (mul_nonneg (mul_nonneg h1 (sq_nonneg v)) hCd) h2

/-- Claim C1: for positive velocity and positive inflation duration, the drag
    force at time zero since deployment equals the reefing factor times the
    base force, it equals the base force exactly from the inflation duration
    onward, and for a reefing factor at most 1 and a nonnegative drag
    coefficient it is monotonically non decreasing in the time since
    deployment. -/
theorem drag_force_inflation_ramp_C1 (alt v D Cd r I : ℝ) (hv : 0 < v)
    (hI : 0 < I) :
    calculate_drag_force alt v D Cd r 0 I =
      r * (0.5 * calculate_air_density alt * v ^ 2 * Cd * (Real.pi * (D / 2) ^ 2)) ∧
    (∀ t, I ≤ t → calculate_drag_force alt v D Cd r t I =
      0.5 * calculate_air_density alt * v ^ 2 * Cd * (Real.pi * (D / 2) ^ 2)) ∧
    (r ≤ 1 → 0 ≤ Cd → ∀ t1 t2, 0 ≤ t1 → t1 ≤ t2 →
      calculate_drag_force alt v D Cd r t1 I ≤ calculate_drag_force alt v D Cd r t2 I) := by
  have hv' : ¬ v ≤ 0 := not_le.mpr hv
  refine ⟨?_, ?_, ?_⟩
  · unfold calculate_drag_force
    rw [if_neg hv', if_pos hI]
    rw [zero_div]
    ring
  · intro t ht
    unfold calculate_drag_force
    rw [if_neg hv', if_neg (not_lt.mpr ht)]
  · intro hr hCd t1 t2 ht1 ht12
    have hbase := base_drag_nonneg alt v Cd D hCd
    rw [calculate_drag_force_eq, calculate_drag_force_eq]
    rw [if_neg hv', if_neg hv']
    by_cases h2 : t2 < I
    · have h1 : t1 < I := lt_of_le_of_lt ht12 h2
      rw [if_pos h1, if_pos h2]
      refine mul_le_mul_of_nonneg_left ?_ hbase
      have hdiv : t1 / I ≤ t2 / I := (div_le_div_right hI).mpr ht12
      have := mul_le_mul_of_nonneg_left hdiv (sub_nonneg.mpr hr)
      linarith
    · by_cases h1 : t1 < I
      · rw [if_pos h1, if_neg h2]
        have heff : r + (1 - r) * (t1 / I) ≤ 1 := by
          have hle : t1 / I ≤ 1 := (div_le_one hI).mpr (le_of_lt h1)
          have := mul_le_mul_of_nonneg_left hle (sub_nonneg.mpr hr)
          linarith
        have h3 := mul_le_mul_of_nonneg_left heff hbase
        rw [mul_one] at h3
        exact h3
      · rw [if_neg h1, if_neg h2]

/-- Witness for claim C1 at concrete inputs. -/
theorem drag_force_inflation_ramp_C1_witness :
    (0 : ℝ) < 1 ∧ (0 : ℝ) < 2 ∧
      calculate_drag_force 0 1 3 1 0.5 0 2 =
        0.5 * (0.5 * calculate_air_density 0 * 1 ^ 2 * 1 * (Real.pi * (3 / 2) ^ 2)) :=
  ⟨by norm_num, by norm_num,
    (drag_force_inflation_ramp_C1 0 1 3 1 0.5 2 (by norm_num) (by norm_num)).1⟩

/-- Global parameters of ParachuteSimulation, from the global_params dict. -/
structure GlobalParams where
  initial_altitude : ℝ
  initial_velocity : ℝ
  time_step : ℝ
  descent_angle : ℝ

/-- Per phase parameters of ParachuteSimulation, from the phase_params dicts. -/
structure PhaseParams where
  diameter : ℝ
  drag_coefficient : ℝ
  deployment_altitude : ℝ
  inflation_index : ℝ
  payload_mass : ℝ
  reefing_factor : ℝ

/-- The whole input of the ParachuteSimulation constructor.  The phase_params
    dict is modelled as a total function from phase names to parameter
    records; only keys of selected_phases are ever read. -/
structure Config where
  global_params : GlobalParams
  phase_params : String → PhaseParams
  selected_phases : List String

/-- One entry of the active_phases list built by _deploy_phase.  The params
    field holds the same record as phase_params of the config, mirroring the
    dict reference stored by the Python code. -/
structure ActivePhase where
  phase : String
  deployment_time : ℝ
  inflation_time : ℝ
  params : PhaseParams

/-- The mutable state of ParachuteSimulation: the per step time series lists,
    the scalar current values and the phase tracking fields.  Python lists
    appended at the right are modelled by List with append at the right; the
    deployed_phases set is modelled as the list of its elements; the two time
    dicts are modelled as total functions defaulting to 0, matching the
    dict.get reads with default 0 in _compile_results. -/
structure SimState where
  time : List ℝ
  altitude : List ℝ
  velocity : List ℝ
  total_drag_force : List ℝ
  phase_drag_forces : String → List ℝ
  horizontal_position : List ℝ
  current_time : ℝ
  current_altitude : ℝ
  current_velocity : ℝ
  current_horizontal_pos : ℝ
  active_phases : List ActivePhase
  deployed_phases : List String
  phase_deployment_times : String → ℝ
  phase_inflation_times : String → ℝ

attribute [ext] SimState

/-- The state built by the ParachuteSimulation constructor. -/
noncomputable def init_state (cfg : Config) : SimState :=
  { time := [], altitude := [], velocity := [], total_drag_force := [],
    phase_drag_forces := fun _ => [], horizontal_position := [],
    current_time := 0,
    current_altitude := cfg.global_params.initial_altitude,
    current_velocity := cfg.global_params.initial_velocity,
    current_horizontal_pos := 0,
    active_phases := [], deployed_phases := [],
    phase_deployment_times := fun _ => 0,
    phase_inflation_times := fun _ => 0 }

/-- Embedding of np.radians. -/
noncomputable def radians (degrees : ℝ) : ℝ := degrees * (Real.pi / 180)

/-- Embedding of ParachuteSimulation._deploy_phase. -/
noncomputable def deploy_phase (cfg : Config) (s : SimState) (phase : String) :
    SimState :=
  let diameter := (cfg.phase_params phase).diameter
  let n_factor := (cfg.phase_params phase).inflation_index
  let inflation_time := calculate_inflation_time n_factor diameter s.current_velocity
  { s with
    deployed_phases := phase :: s.deployed_phases,
    phase_deployment_times := fun q =>
      if q = phase then s.current_time else s.phase_deployment_times q,
    phase_inflation_times := fun q =>
      if q = phase then inflation_time else s.phase_inflation_times q,
    active_phases := s.active_phases ++
      [{ phase := phase, deployment_time := s.current_time,
         inflation_time := inflation_time, params := cfg.phase_params phase }] }

/-- The loop body of _check_phase_deployments for a single phase. -/
noncomputable def check_step (cfg : Config) (st : SimState) (phase : String) :
    SimState :=
  if phase ∈ st.deployed_phases then st
  else if st.current_altitude ≤ (cfg.phase_params phase).deployment_altitude then
    deploy_phase cfg st phase
  else st

/-- Embedding of ParachuteSimulation._check_phase_deployments: the loop over
    selected_phases in configured order. -/
noncomputable def check_phase_deployments (cfg : Config) (s : SimState) : SimState :=
  cfg.selected_phases.foldl (check_step cfg) s

/-- Drag force contribution of one active phase entry at the current state,
    as computed inside the loop of _calculate_forces. -/
noncomputable def phase_drag (s : SimState) (r : ActivePhase) : ℝ :=
  calculate_drag_force s.current_altitude s.current_velocity r.params.diameter
    r.params.drag_coefficient r.params.reefing_factor
    (s.current_time - r.deployment_time) r.inflation_time

/-- The per phase drag values of the current step.  The Python code appends a
    0 entry for every selected phase and then overwrites the last entry of a
    phase once for each of its active records; last write wins, which is
    exactly a left fold of pointwise updates starting from the all zero row. -/
noncomputable def drag_row (s : SimState) : String → ℝ :=
  s.active_phases.foldl
    (fun row r => fun q => if q = r.phase then phase_drag s r else row q)
    (fun _ => 0)

/-- Embedding of ParachuteSimulation._calculate_forces. -/
noncomputable def calculate_forces (cfg : Config) (s : SimState) : SimState :=
  { s with
    phase_drag_forces := fun p =>
      if p ∈ cfg.selected_phases then s.phase_drag_forces p ++ [drag_row s p]
      else s.phase_drag_forces p,
    total_drag_force :=
      s.total_drag_force ++ [(s.active_phases.map (phase_drag s)).sum] }

/-- Embedding of ParachuteSimulation._get_current_mass.  For an empty phase
    selection the Python code raises an index error; the model returns the
    parameters of the empty string key, and all claims assume at least one
    configured phase. -/
noncomputable def get_current_mass (cfg : Config) (s : SimState) : ℝ :=
  match s.active_phases with
  | r :: _ => r.params.payload_mass
  | [] => (cfg.phase_params (cfg.selected_phases.headD "")).payload_mass

/-- Embedding of ParachuteSimulation._update_dynamics. -/
noncomputable def update_dynamics (cfg : Config) (s : SimState) : SimState :=
  let current_drag := s.total_drag_force.getLastD 0
  let mass := get_current_mass cfg s
  let gravity_component := g * Real.cos (radians cfg.global_params.descent_angle)
  let drag_deceleration := current_drag / mass
  let net_acceleration := gravity_component - drag_deceleration
  let new_velocity :=
    max 0 (s.current_velocity + net_acceleration * cfg.global_params.time_step)
  let altitude_change := new_velocity * cfg.global_params.time_step
  let horizontal_velocity :=
    new_velocity * Real.sin (radians cfg.global_params.descent_angle)
  { s with
    current_velocity := new_velocity,
    current_altitude := s.current_altitude - altitude_change,
    current_horizontal_pos :=
      s.current_horizontal_pos + horizontal_velocity * cfg.global_params.time_step }

/-- Embedding of ParachuteSimulation._store_data. -/
noncomputable def store_data (s : SimState) : SimState :=
  { s with
    time := s.time ++ [s.current_time],
    altitude := s.altitude ++ [max 0 s.current_altitude],
    velocity := s.velocity ++ [s.current_velocity],
    horizontal_position := s.horizontal_position ++ [s.current_horizontal_pos] }

/-- One iteration of the while loop body of ParachuteSimulation.run, including
    the final advance of current_time. -/
noncomputable def sim_step (cfg : Config) (s : SimState) : SimState :=
  let s1 := check_phase_deployments cfg s
  let s2 := calculate_forces cfg s1
  let s3 := update_dynamics cfg s2
  let s4 := store_data s3
  { s4 with current_time := s4.current_time + cfg.global_params.time_step }

/-- The state after n unconditional iterations of the loop body, starting
    from the constructor state. -/
noncomputable def sim_states (cfg : Config) : ℕ → SimState
  | 0 => init_state cfg
  | n + 1 => sim_step cfg (sim_states cfg n)

/-- The while loop of ParachuteSimulation.run.  The loop runs while the
    current altitude is positive and breaks once current_time passes the
    10000 second safety ceiling; fuel is an upper bound on the number of
    iterations, and theorems quantify over every sufficiently large fuel. -/
noncomputable def run_aux (cfg : Config) : ℕ → SimState → SimState
  | 0, s => s
  | fuel + 1, s =>
    if 0 < s.current_altitude then
      let s1 := sim_step cfg s
      if 10000 < s1.current_time then s1 else run_aux cfg fuel s1
    else s

/-- Python max over a list of floats, with the 0 default used by
    _compile_results for empty series. -/
def listMax : List ℝ → ℝ
  | [] => 0
  | x :: xs => xs.foldl max x

/-- One entry of the phase_results list of _compile_results.  The Python code
    formats the three numbers as one decimal strings for display; the model
    keeps the numeric values. -/
structure PhaseResult where
  phase : String
  max_drag_force : ℝ
  deployment_time : ℝ
  inflation_time : ℝ

/-- The results dict of _compile_results. -/
structure Results where
  max_total_drag_force : ℝ
  landing_velocity : ℝ
  total_flight_time : ℝ
  total_horizontal_range : ℝ
  final_altitude : ℝ
  phase_results : List PhaseResult

attribute [ext] Results

/-- Embedding of ParachuteSimulation._compile_results. -/
noncomputable def compile_results (cfg : Config) (s : SimState) : Results :=
  { max_total_drag_force := listMax s.total_drag_force,
    landing_velocity := s.velocity.getLastD 0,
    total_flight_time := s.time.getLastD 0,
    total_horizontal_range := s.horizontal_position.getLastD 0,
    final_altitude := s.altitude.getLastD 0,
    phase_results := cfg.selected_phases.map (fun p =>
      { phase := p,
        max_drag_force := listMax (s.phase_drag_forces p),
        deployment_time := s.phase_deployment_times p,
        inflation_time := s.phase_inflation_times p }) }

/-- Embedding of ParachuteSimulation.run: iterate the loop, then compile. -/
noncomputable def run (cfg : Config) (fuel : ℕ) : Results :=
  compile_results cfg (run_aux cfg fuel (init_state cfg))

/-- Fields of the state that _check_phase_deployments never modifies. -/
structure SameFrame (s t : SimState) : Prop where
  ct : s.current_time = t.current_time
  ca : s.current_altitude = t.current_altitude
  cv : s.current_velocity = t.current_velocity
  ch : s.current_horizontal_pos = t.current_horizontal_pos
  tm : s.time = t.time
  al : s.altitude = t.altitude
  ve : s.velocity = t.velocity
  td : s.total_drag_force = t.total_drag_force
  hp : s.horizontal_position = t.horizontal_position
  pdf : s.phase_drag_forces = t.phase_drag_forces

lemma sameFrame_refl (s : SimState) : SameFrame s s :=
  ⟨rfl, rfl, rfl, rfl, rfl, rfl, rfl, rfl, rfl, rfl⟩

lemma sameFrame_trans {s t u : SimState} (h1 : SameFrame s t) (h2 : SameFrame t u) :
    SameFrame s u :=
  ⟨h1.ct.trans h2.ct, h1.ca.trans h2.ca, h1.cv.trans h2.cv, h1.ch.trans h2.ch,
   h1.tm.trans h2.tm, h1.al.trans h2.al, h1.ve.trans h2.ve, h1.td.trans h2.td,
   h1.hp.trans h2.hp, h1.pdf.trans h2.pdf⟩

lemma check_step_frame (cfg : Config) (st : SimState) (q : String) :
    SameFrame st (check_step cfg st q) := by
  unfold check_step deploy_phase
  split
  · exact sameFrame_refl st
  · split
    · exact ⟨rfl, rfl, rfl, rfl, rfl, rfl, rfl, rfl, rfl, rfl⟩
    · exact sameFrame_refl st

lemma checkFold_frame (cfg : Config) :
    ∀ (l : List String) (s : SimState), SameFrame s (l.foldl (check_step cfg) s) := by
  intro l
  induction l with
  | nil => intro s; exact sameFrame_refl s
  | cons q l ih =>
    intro s
    rw [List.foldl_cons]
    exact sameFrame_trans (check_step_frame cfg s q) (ih (check_step cfg s q))

lemma check_frame (cfg : Config) (s : SimState) :
    SameFrame s (check_phase_deployments cfg s) :=
  checkFold_frame cfg cfg.selected_phases s

/-- Deployment membership after one element of the deployment check loop. -/
lemma check_step_deployed_mem (cfg : Config) (st : SimState) (q p : String) :
    p ∈ (check_step cfg st q).deployed_phases ↔
      p ∈ st.deployed_phases ∨
        (p = q ∧ st.current_altitude ≤ (cfg.phase_params q).deployment_altitude) := by
  unfold check_step deploy_phase
  by_cases h1 : q ∈ st.deployed_phases
  · rw [if_pos h1]
    constructor
    · exact Or.inl
    · rintro (h | ⟨rfl, h⟩)
      · exact h
      · exact h1
  · rw [if_neg h1]
    by_cases h2 : st.current_altitude ≤ (cfg.phase_params q).deployment_altitude
    · rw [if_pos h2]
      show p ∈ q :: st.deployed_phases ↔ _
      rw [List.mem_cons]
      constructor
      · rintro (rfl | h)
        · exact Or.inr ⟨rfl, h2⟩
        · exact Or.inl h
      · rintro (h | ⟨rfl, h⟩)
        · exact Or.inr h
        · exact Or.inl rfl
    · rw [if_neg h2]
      constructor
      · exact Or.inl
      · rintro (h | ⟨rfl, h⟩)
        · exact h
        · exact absurd h h2

/-- Deployment membership after the whole deployment check loop. -/
lemma checkFold_deployed_mem (cfg : Config) (p : String) :
    ∀ (l : List String) (s : SimState),
      p ∈ (l.foldl (check_step cfg) s).deployed_phases ↔
        p ∈ s.deployed_phases ∨
          (p ∈ l ∧ s.current_altitude ≤ (cfg.phase_params p).deployment_altitude) := by
  intro l
  induction l with
  | nil => intro s; simp
  | cons q l ih =>
    intro s
    rw [List.foldl_cons, ih (check_step cfg s q)]
    rw [check_step_deployed_mem]
    rw [← (check_step_frame cfg s q).ca]
    constructor
    · rintro ((h | ⟨rfl, h⟩) | ⟨hmem, h⟩)
      · exact Or.inl h
      · exact Or.inr ⟨List.mem_cons_self _ _, h⟩
      · exact Or.inr ⟨List.mem_cons_of_mem _ hmem, h⟩
    · rintro (h | ⟨hmem, h⟩)
      · exact Or.inl (Or.inl h)
      · rcases List.mem_cons.mp hmem with rfl | hm
        · exact Or.inl (Or.inr ⟨rfl, h⟩)
        · exact Or.inr ⟨hm, h⟩

lemma check_deployed_mem (cfg : Config) (s : SimState) (p : String) :
    p ∈ (check_phase_deployments cfg s).deployed_phases ↔
      p ∈ s.deployed_phases ∨
        (p ∈ cfg.selected_phases ∧
          s.current_altitude ≤ (cfg.phase_params p).deployment_altitude) :=
  checkFold_deployed_mem cfg p cfg.selected_phases s

/-- The deployment check only appends to the active list, and every appended
    record is built by _deploy_phase from the current state. -/
lemma checkFold_active (cfg : Config) :
    ∀ (l : List String) (s : SimState), ∃ new : List ActivePhase,
      (l.foldl (check_step cfg) s).active_phases = s.active_phases ++ new ∧
      ∀ r ∈ new,
        r.deployment_time = s.current_time ∧
        r.params = cfg.phase_params r.phase ∧
        r.phase ∈ l ∧
        r.inflation_time = calculate_inflation_time
          (cfg.phase_params r.phase).inflation_index
          (cfg.phase_params r.phase).diameter s.current_velocity ∧
        r.phase ∈ (l.foldl (check_step cfg) s).deployed_phases := by
  intro l
  induction l with
  | nil => intro s; exact ⟨[], by simp, by simp⟩
  | cons q l ih =>
    intro s
    rw [List.foldl_cons]
    by_cases hd : q ∈ s.deployed_phases
    · have hq : check_step cfg s q = s := by unfold check_step; rw [if_pos hd]
      rw [hq]
      obtain ⟨new, hact, hprops⟩ := ih s
      refine ⟨new, hact, fun r hr => ?_⟩
      obtain ⟨h1, h2, h3, h4, h5⟩ := hprops r hr
      exact ⟨h1, h2, List.mem_cons_of_mem _ h3, h4, h5⟩
    · by_cases hc : s.current_altitude ≤ (cfg.phase_params q).deployment_altitude
      · have hq : check_step cfg s q = deploy_phase cfg s q := by
          unfold check_step
          rw [if_neg hd, if_pos hc]
        rw [hq]
        obtain ⟨new, hact, hprops⟩ := ih (deploy_phase cfg s q)
        refine ⟨{ phase := q, deployment_time := s.current_time,
                  inflation_time := calculate_inflation_time
                    (cfg.phase_params q).inflation_index
                    (cfg.phase_params q).diameter s.current_velocity,
                  params := cfg.phase_params q } :: new, ?_, ?_⟩
        · rw [hact]
          show (s.active_phases ++ [_]) ++ new = _
          rw [List.append_assoc]
          rfl
        · intro r hr
          rcases List.mem_cons.mp hr with rfl | hm
          · refine ⟨rfl, rfl, List.mem_cons_self _ _, rfl, ?_⟩
            rw [checkFold_deployed_mem]
            exact Or.inl (List.mem_cons_self _ _)
          · obtain ⟨h1, h2, h3, h4, h5⟩ := hprops r hm
            exact ⟨h1, h2, List.mem_cons_of_mem _ h3, h4, h5⟩
      · have hq : check_step cfg s q = s := by
          unfold check_step
          rw [if_neg hd, if_neg hc]
        rw [hq]
        obtain ⟨new, hact, hprops⟩ := ih s
        refine ⟨new, hact, fun r hr => ?_⟩
        obtain ⟨h1, h2, h3, h4, h5⟩ := hprops r hr
        exact ⟨h1, h2, List.mem_cons_of_mem _ h3, h4, h5⟩

/-- Every deployed phase owns a record in the active list, preserved by
    the deployment check. -/
lemma check_step_dep_act (cfg : Config) (st : SimState) (q : String)
    (h : ∀ p ∈ st.deployed_phases, ∃ r ∈ st.active_phases, r.phase = p) :
    ∀ p ∈ (check_step cfg st q).deployed_phases,
      ∃ r ∈ (check_step cfg st q).active_phases, r.phase = p := by
  unfold check_step deploy_phase
  split
  · exact h
  · split
    · intro p hp
      rcases List.mem_cons.mp hp with rfl | hm
      · exact ⟨_, List.mem_append_right _ (List.mem_singleton_self _), rfl⟩
      · obtain ⟨r, hr, hrp⟩ := h p hm
        exact ⟨r, List.mem_append_left _ hr, hrp⟩
    · exact h

lemma checkFold_dep_act (cfg : Config) :
    ∀ (l : List String) (s : SimState),
      (∀ p ∈ s.deployed_phases, ∃ r ∈ s.active_phases, r.phase = p) →
      ∀ p ∈ (l.foldl (check_step cfg) s).deployed_phases,
        ∃ r ∈ (l.foldl (check_step cfg) s).active_phases, r.phase = p := by
  intro l
  induction l with
  | nil => intro s h; exact h
  | cons q l ih =>
    intro s h
    rw [List.foldl_cons]
    exact ih (check_step cfg s q) (check_step_dep_act cfg s q h)

/-- Conversely, every active record belongs to a deployed phase. -/
lemma check_step_act_dep (cfg : Config) (st : SimState) (q : String)
    (h : ∀ r ∈ st.active_phases, r.phase ∈ st.deployed_phases) :
    ∀ r ∈ (check_step cfg st q).active_phases,
      r.phase ∈ (check_step cfg st q).deployed_phases := by
  unfold check_step deploy_phase
  split
  · exact h
  · split
    · intro r hr
      rcases List.mem_append.mp hr with hm | hm
      · exact List.mem_cons_of_mem _ (h r hm)
      · rw [List.mem_singleton.mp hm]
        exact List.mem_cons_self _ _
    · exact h

lemma checkFold_act_dep (cfg : Config) :
    ∀ (l : List String) (s : SimState),
      (∀ r ∈ s.active_phases, r.phase ∈ s.deployed_phases) →
      ∀ r ∈ (l.foldl (check_step cfg) s).active_phases,
        r.phase ∈ (l.foldl (check_step cfg) s).deployed_phases := by
  intro l
  induction l with
  | nil => intro s h; exact h
  | cons q l ih =>
    intro s h
    rw [List.foldl_cons]
    exact ih (check_step cfg s q) (check_step_act_dep cfg s q h)

/-- Projections of one simulation step: the phase tracking fields after the
    step are exactly those after the deployment check. -/
lemma sim_step_deployed (cfg : Config) (s : SimState) :
    (sim_step cfg s).deployed_phases =
      (check_phase_deployments cfg s).deployed_phases := rfl

lemma sim_step_active (cfg : Config) (s : SimState) :
    (sim_step cfg s).active_phases =
      (check_phase_deployments cfg s).active_phases := rfl

lemma sim_step_dep_times (cfg : Config) (s : SimState) :
    (sim_step cfg s).phase_deployment_times =
      (check_phase_deployments cfg s).phase_deployment_times := rfl

lemma sim_step_infl_times (cfg : Config) (s : SimState) :
    (sim_step cfg s).phase_inflation_times =
      (check_phase_deployments cfg s).phase_inflation_times := rfl

lemma sim_step_current_time (cfg : Config) (s : SimState) :
    (sim_step cfg s).current_time = s.current_time + cfg.global_params.time_step := by
  show (check_phase_deployments cfg s).current_time + cfg.global_params.time_step = _
  rw [← (check_frame cfg s).ct]

lemma sim_step_velocity_nonneg (cfg : Config) (s : SimState) :
    0 ≤ (sim_step cfg s).current_velocity :=
  le_max_left 0 _

lemma sim_step_current_altitude (cfg : Config) (s : SimState) :
    (sim_step cfg s).current_altitude =
      s.current_altitude -
        (sim_step cfg s).current_velocity * cfg.global_params.time_step := by
  show (check_phase_deployments cfg s).current_altitude - _ = _
  rw [← (check_frame cfg s).ca]
  rfl

lemma sim_step_time_series (cfg : Config) (s : SimState) :
    (sim_step cfg s).time = s.time ++ [s.current_time] := by
  show (check_phase_deployments cfg s).time ++
      [(check_phase_deployments cfg s).current_time] = _
  rw [← (check_frame cfg s).tm, ← (check_frame cfg s).ct]

lemma sim_step_altitude_series (cfg : Config) (s : SimState) :
    (sim_step cfg s).altitude =
      s.altitude ++ [max 0 ((sim_step cfg s).current_altitude)] := by
  show (check_phase_deployments cfg s).altitude ++ _ = _
  rw [← (check_frame cfg s).al]
  rfl

lemma sim_step_velocity_series (cfg : Config) (s : SimState) :
    (sim_step cfg s).velocity =
      s.velocity ++ [(sim_step cfg s).current_velocity] := by
  show (check_phase_deployments cfg s).velocity ++ _ = _
  rw [← (check_frame cfg s).ve]
  rfl

lemma sim_step_hpos_series (cfg : Config) (s : SimState) :
    (sim_step cfg s).horizontal_position =
      s.horizontal_position ++ [(sim_step cfg s).current_horizontal_pos] := by
  show (check_phase_deployments cfg s).horizontal_position ++ _ = _
  rw [← (check_frame cfg s).hp]
  rfl

lemma sim_step_total_series (cfg : Config) (s : SimState) :
    (sim_step cfg s).total_drag_force =
      s.total_drag_force ++
        [((check_phase_deployments cfg s).active_phases.map
            (phase_drag (check_phase_deployments cfg s))).sum] := by
  show (check_phase_deployments cfg s).total_drag_force ++ _ = _
  rw [← (check_frame cfg s).td]

lemma sim_step_pdf (cfg : Config) (s : SimState) (p : String) :
    (sim_step cfg s).phase_drag_forces p =
      if p ∈ cfg.selected_phases then
        s.phase_drag_forces p ++ [drag_row (check_phase_deployments cfg s) p]
      else s.phase_drag_forces p := by
  show (if p ∈ cfg.selected_phases then
      (check_phase_deployments cfg s).phase_drag_forces p ++ [_] else
      (check_phase_deployments cfg s).phase_drag_forces p) = _
  rw [← (check_frame cfg s).pdf]

/-- Deployment membership across one whole simulation step. -/
lemma sim_step_deployed_mem (cfg : Config) (s : SimState) (p : String) :
    p ∈ (sim_step cfg s).deployed_phases ↔
      p ∈ s.deployed_phases ∨
        (p ∈ cfg.selected_phases ∧
          s.current_altitude ≤ (cfg.phase_params p).deployment_altitude) := by
  rw [sim_step_deployed]
  exact check_deployed_mem cfg s p

/-- Structural invariant of the simulation loop after n iterations: all
    series have one entry per iteration, current_time advances by one time
    step per iteration, and the phase tracking fields agree with each other
    and with the configuration. -/
structure BasicInv (cfg : Config) (s : SimState) (n : ℕ) : Prop where
  time_len : s.time.length = n
  alt_len : s.altitude.length = n
  vel_len : s.velocity.length = n
  drag_len : s.total_drag_force.length = n
  hpos_len : s.horizontal_position.length = n
  pdf_len : ∀ p ∈ cfg.selected_phases, (s.phase_drag_forces p).length = n
  pdf_nonsel : ∀ p, p ∉ cfg.selected_phases → s.phase_drag_forces p = []
  cur_time : s.current_time = n * cfg.global_params.time_step
  act_dep : ∀ r ∈ s.active_phases, r.phase ∈ s.deployed_phases
  dep_act : ∀ p ∈ s.deployed_phases, ∃ r ∈ s.active_phases, r.phase = p
  dep_sel : ∀ p ∈ s.deployed_phases, p ∈ cfg.selected_phases
  act_params : ∀ r ∈ s.active_phases, r.params = cfg.phase_params r.phase

lemma basicInv_init (cfg : Config) : BasicInv cfg (init_state cfg) 0 := by
  constructor <;> simp [init_state]

lemma basicInv_step (cfg : Config) {s : SimState} {n : ℕ} (h : BasicInv cfg s n) :
    BasicInv cfg (sim_step cfg s) (n + 1) := by
  obtain ⟨newrecs, hact, hprops⟩ := checkFold_active cfg cfg.selected_phases s
  constructor
  · rw [sim_step_time_series, List.length_append, h.time_len, List.length_singleton]
  · rw [sim_step_altitude_series, List.length_append, h.alt_len, List.length_singleton]
  · rw [sim_step_velocity_series, List.length_append, h.vel_len, List.length_singleton]
  · rw [sim_step_total_series, List.length_append, h.drag_len, List.length_singleton]
  · rw [sim_step_hpos_series, List.length_append, h.hpos_len, List.length_singleton]
  · intro p hp
    rw [sim_step_pdf, if_pos hp, List.length_append, h.pdf_len p hp,
      List.length_singleton]
  · intro p hp
    rw [sim_step_pdf, if_neg hp]
    exact h.pdf_nonsel p hp
  · rw [sim_step_current_time, h.cur_time]
    push_cast
    ring
  · rw [sim_step_active, sim_step_deployed]
    exact checkFold_act_dep cfg cfg.selected_phases s h.act_dep
  · rw [sim_step_active, sim_step_deployed]
    exact checkFold_dep_act cfg cfg.selected_phases s h.dep_act
  · intro p hp
    rw [sim_step_deployed] at hp
    rcases (check_deployed_mem cfg s p).mp hp with h1 | ⟨h1, _⟩
    · exact h.dep_sel p h1
    · exact h1
  · intro r hr
    rw [sim_step_active] at hr
    have hr2 : r ∈ s.active_phases ++ newrecs := by
      have hact2 : (check_phase_deployments cfg s).active_phases =
          s.active_phases ++ newrecs := hact
      rw [← hact2]
      exact hr
    rcases List.mem_append.mp hr2 with hm | hm
    · exact h.act_params r hm
    · exact (hprops r hm).2.1

lemma basicInv_sim (cfg : Config) : ∀ n, BasicInv cfg (sim_states cfg n) n
  | 0 => basicInv_init cfg
  | n + 1 => basicInv_step cfg (basicInv_sim cfg n)

/-- Once a phase is in the deployed set it stays there: claim C2 part one. -/
lemma deployed_mono (cfg : Config) (p : String) :
    ∀ n, p ∈ (sim_states cfg n).deployed_phases →
      p ∈ (sim_states cfg (n + 1)).deployed_phases := by
  intro n h
  rw [show sim_states cfg (n + 1) = sim_step cfg (sim_states cfg n) from rfl]
  rw [sim_step_deployed_mem]
  exact Or.inl h

/-- A phase is deployed after n iterations exactly when some earlier
    iteration saw the current altitude at or below its threshold. -/
lemma deployed_iff (cfg : Config) (p : String) (hp : p ∈ cfg.selected_phases) :
    ∀ n, p ∈ (sim_states cfg n).deployed_phases ↔
      ∃ k, k < n ∧ (sim_states cfg k).current_altitude ≤
        (cfg.phase_params p).deployment_altitude := by
  intro n
  induction n with
  | zero => simp [sim_states, init_state]
  | succ n ih =>
    rw [show sim_states cfg (n + 1) = sim_step cfg (sim_states cfg n) from rfl,
      sim_step_deployed_mem]
    constructor
    · rintro (h | ⟨_, h⟩)
      · obtain ⟨k, hk, hc⟩ := ih.mp h
        exact ⟨k, Nat.lt_succ_of_lt hk, hc⟩
      · exact ⟨n, Nat.lt_succ_self n, h⟩
    · rintro ⟨k, hk, hc⟩
      rcases Nat.lt_succ_iff_lt_or_eq.mp hk with hk' | rfl
      · exact Or.inl (ih.mpr ⟨k, hk', hc⟩)
      · exact Or.inr ⟨hp, hc⟩

/-- If no record of the active list belongs to phase p, the drag row of the
    step carries a 0 for p. -/
lemma drag_row_fold_zero (s : SimState) (p : String) :
    ∀ (l : List ActivePhase) (row : String → ℝ),
      (∀ r ∈ l, r.phase ≠ p) → row p = 0 →
      (l.foldl (fun row r => fun q => if q = r.phase then phase_drag s r else row q)
        row) p = 0 := by
  intro l
  induction l with
  | nil => intro row _ h0; exact h0
  | cons r l ih =>
    intro row hl h0
    rw [List.foldl_cons]
    refine ih _ (fun r2 h2 => hl r2 (List.mem_cons_of_mem _ h2)) ?_
    have hne : p ≠ r.phase := fun hpr => (hl r (List.mem_cons_self _ _)) hpr.symm
    simp only [if_neg hne]
    exact h0

lemma drag_row_zero (s : SimState) (p : String)
    (h : ∀ r ∈ s.active_phases, r.phase ≠ p) : drag_row s p = 0 :=
  drag_row_fold_zero s p s.active_phases (fun _ => 0) h rfl

/-- The j-th entry of the drag series of a selected phase is the drag row
    value of iteration j, for every later state. -/
lemma pdf_entry (cfg : Config) (p : String) (hp : p ∈ cfg.selected_phases) :
    ∀ n j, j < n →
      ((sim_states cfg n).phase_drag_forces p).get? j =
        some (drag_row (check_phase_deployments cfg (sim_states cfg j)) p) := by
  intro n
  induction n with
  | zero => intro j h; exact absurd h (Nat.not_lt_zero j)
  | succ n ih =>
    intro j hj
    have hlen : ((sim_states cfg n).phase_drag_forces p).length = n :=
      (basicInv_sim cfg n).pdf_len p hp
    rw [show sim_states cfg (n + 1) = sim_step cfg (sim_states cfg n) from rfl,
      sim_step_pdf, if_pos hp]
    rcases Nat.lt_succ_iff_lt_or_eq.mp hj with hj' | rfl
    · rw [List.get?_append (by rw [hlen]; exact hj')]
      exact ih j hj'
    · rw [List.get?_append_right (le_of_eq hlen), hlen]
      simp

/-- Claim C2: a configured phase moves from pending to deployed at most once,
    exactly at the first loop step whose current altitude is at or below its
    configured deployment altitude, is never removed from the deployed set
    afterwards, and its per phase drag series entry is exactly 0 at every
    step on which it was not yet deployed. -/
theorem single_deployment_C2 (cfg : Config) (p : String)
    (hp : p ∈ cfg.selected_phases) :
    (∀ n, p ∈ (sim_states cfg n).deployed_phases →
        p ∈ (sim_states cfg (n + 1)).deployed_phases) ∧
    (∀ n, p ∈ (sim_states cfg n).deployed_phases ↔
        ∃ k, k < n ∧ (sim_states cfg k).current_altitude ≤
          (cfg.phase_params p).deployment_altitude) ∧
    (∀ n j, j < n → p ∉ (sim_states cfg (j + 1)).deployed_phases →
        ((sim_states cfg n).phase_drag_forces p).get? j = some 0) := by
  refine ⟨deployed_mono cfg p, deployed_iff cfg p hp, ?_⟩
  intro n j hj hnd
  rw [pdf_entry cfg p hp n j hj]
  congr 1
  apply drag_row_zero
  intro r hr hrp
  apply hnd
  rw [show sim_states cfg (j + 1) = sim_step cfg (sim_states cfg j) from rfl,
    sim_step_deployed]
  have hmem := checkFold_act_dep cfg cfg.selected_phases (sim_states cfg j)
    (basicInv_sim cfg j).act_dep r hr
  exact hrp ▸ hmem

/-- Altitude series invariant: entries are non increasing and the last entry
    dominates the clamped current altitude. -/
def AltInv (s : SimState) : Prop :=
  s.altitude.Chain' (fun a b => b ≤ a) ∧
  ∀ x ∈ s.altitude.getLast?, max 0 s.current_altitude ≤ x

lemma altInv_init (cfg : Config) : AltInv (init_state cfg) := by
  constructor
  · simp [init_state]
  · simp [init_state]

lemma altInv_step (cfg : Config) {s : SimState}
    (hdt : 0 ≤ cfg.global_params.time_step) (h : AltInv s) :
    AltInv (sim_step cfg s) := by
  have hv := sim_step_velocity_nonneg cfg s
  have hle : (sim_step cfg s).current_altitude ≤ s.current_altitude := by
    rw [sim_step_current_altitude]
    nlinarith [mul_nonneg hv hdt]
  have hmax : max 0 ((sim_step cfg s).current_altitude) ≤ max 0 s.current_altitude :=
    max_le_max le_rfl hle
  constructor
  · rw [sim_step_altitude_series, List.chain'_append]
    refine ⟨h.1, List.chain'_singleton _, ?_⟩
    intro x hx y hy
    simp only [List.head?_cons, Option.mem_some_iff] at hy
    subst hy
    exact le_trans hmax (h.2 x hx)
  · intro x hx
    rw [sim_step_altitude_series, List.getLast?_concat] at hx
    simp only [Option.mem_some_iff] at hx
    subst hx
    exact le_rfl

lemma altInv_sim (cfg : Config) (hdt : 0 ≤ cfg.global_params.time_step) :
    ∀ n, AltInv (sim_states cfg n)
  | 0 => altInv_init cfg
  | n + 1 => altInv_step cfg hdt (altInv_sim cfg hdt n)

/-- Adjacent entries of a non increasing chain compare as expected. -/
lemma chain_get_le {l : List ℝ} (h : l.Chain' (fun a b => b ≤ a))
    (i : ℕ) (x y : ℝ) (hx : l.get? i = some x) (hy : l.get? (i + 1) = some y) :
    y ≤ x := by
  obtain ⟨hi0, hgx⟩ := List.get?_eq_some.mp hx
  obtain ⟨hi1, hgy⟩ := List.get?_eq_some.mp hy
  have h2 := List.chain'_iff_get.mp h i (by omega)
  rw [← hgx, ← hgy]
  exact h2

/-- Every value of the run loop is the state after some number of
    unconditional iterations of the loop body. -/
lemma run_aux_eq_sim_states (cfg : Config) :
    ∀ (fuel k : ℕ), ∃ m, run_aux cfg fuel (sim_states cfg k) = sim_states cfg (k + m) := by
  intro fuel
  induction fuel with
  | zero => intro k; exact ⟨0, rfl⟩
  | succ fuel ih =>
    intro k
    by_cases h : 0 < (sim_states cfg k).current_altitude
    · by_cases h2 : 10000 < (sim_step cfg (sim_states cfg k)).current_time
      · refine ⟨1, ?_⟩
        show (if 0 < (sim_states cfg k).current_altitude then
            if 10000 < (sim_step cfg (sim_states cfg k)).current_time then
              sim_step cfg (sim_states cfg k)
            else run_aux cfg fuel (sim_step cfg (sim_states cfg k))
          else sim_states cfg k) = sim_states cfg (k + 1)
        rw [if_pos h, if_pos h2]
        rfl
      · obtain ⟨m, hm⟩ := ih (k + 1)
        refine ⟨1 + m, ?_⟩
        show (if 0 < (sim_states cfg k).current_altitude then
            if 10000 < (sim_step cfg (sim_states cfg k)).current_time then
              sim_step cfg (sim_states cfg k)
            else run_aux cfg fuel (sim_step cfg (sim_states cfg k))
          else sim_states cfg k) = sim_states cfg (k + (1 + m))
        rw [if_pos h, if_neg h2, ← Nat.add_assoc]
        exact hm
    · refine ⟨0, ?_⟩
      show (if 0 < (sim_states cfg k).current_altitude then
          if 10000 < (sim_step cfg (sim_states cfg k)).current_time then
            sim_step cfg (sim_states cfg k)
          else run_aux cfg fuel (sim_step cfg (sim_states cfg k))
        else sim_states cfg k) = sim_states cfg (k + 0)
      rw [if_neg h]
      rfl

lemma run_aux_init (cfg : Config) (fuel : ℕ) :
    ∃ m, run_aux cfg fuel (init_state cfg) = sim_states cfg m := by
  obtain ⟨m, hm⟩ := run_aux_eq_sim_states cfg fuel 0
  exact ⟨0 + m, hm⟩

/-- Claim C6: for every run with a positive time step, the stored altitude
    series is monotonically non increasing from each index to the next. -/
theorem monotonic_altitude_C6 (cfg : Config) (fuel : ℕ)
    (hdt : 0 < cfg.global_params.time_step) (i : ℕ) (x y : ℝ)
    (hx : (run_aux cfg fuel (init_state cfg)).altitude.get? i = some x)
    (hy : (run_aux cfg fuel (init_state cfg)).altitude.get? (i + 1) = some y) :
    y ≤ x := by
  obtain ⟨m, hm⟩ := run_aux_init cfg fuel
  rw [hm] at hx hy
  exact chain_get_le (altInv_sim cfg (le_of_lt hdt) m).1 i x y hx hy

/-- Closed form of the four kinematic time series: entry k pairs the time
    value from before the updates of iteration k with the state values from
    after them. -/
lemma series_spec (cfg : Config) : ∀ n,
    (sim_states cfg n).time =
      (List.range n).map (fun k : ℕ => (k : ℝ) * cfg.global_params.time_step) ∧
    (sim_states cfg n).altitude =
      (List.range n).map (fun k => max 0 ((sim_states cfg (k + 1)).current_altitude)) ∧
    (sim_states cfg n).velocity =
      (List.range n).map (fun k => (sim_states cfg (k + 1)).current_velocity) ∧
    (sim_states cfg n).horizontal_position =
      (List.range n).map (fun k => (sim_states cfg (k + 1)).current_horizontal_pos) := by
  intro n
  induction n with
  | zero => exact ⟨rfl, rfl, rfl, rfl⟩
  | succ n ih =>
    obtain ⟨ht, ha, hv, hh⟩ := ih
    have hstep : sim_states cfg (n + 1) = sim_step cfg (sim_states cfg n) := rfl
    refine ⟨?_, ?_, ?_, ?_⟩
    · rw [hstep, sim_step_time_series, ht, (basicInv_sim cfg n).cur_time,
        List.range_succ, List.map_append]
      rfl
    · rw [hstep, sim_step_altitude_series, ha, List.range_succ, List.map_append]
      rfl
    · rw [hstep, sim_step_velocity_series, hv, List.range_succ, List.map_append]
      rfl
    · rw [hstep, sim_step_hpos_series, hh, List.range_succ, List.map_append]
      rfl

/-- Claim C10: each stored snapshot pairs the time value from before the
    updates of its iteration with the state values from after them, so after
    n loop iterations the stored times are 0, dt, ..., up to the reported
    total flight time of one dt less than the total simulated time. -/
theorem snapshot_alignment_C10 (cfg : Config) (n : ℕ) :
    (∀ k, k < n → (sim_states cfg n).time.get? k =
        some ((k : ℝ) * cfg.global_params.time_step)) ∧
    (∀ k, k < n → (sim_states cfg n).altitude.get? k =
        some (max 0 ((sim_states cfg (k + 1)).current_altitude))) ∧
    (∀ k, k < n → (sim_states cfg n).velocity.get? k =
        some ((sim_states cfg (k + 1)).current_velocity)) ∧
    (∀ k, k < n → (sim_states cfg n).horizontal_position.get? k =
        some ((sim_states cfg (k + 1)).current_horizontal_pos)) ∧
    (∀ m, n = m + 1 →
      (compile_results cfg (sim_states cfg n)).total_flight_time =
        (m : ℝ) * cfg.global_params.time_step ∧
      (compile_results cfg (sim_states cfg n)).total_flight_time +
        cfg.global_params.time_step = (sim_states cfg n).current_time) := by
  obtain ⟨ht, ha, hv, hh⟩ := series_spec cfg n
  refine ⟨?_, ?_, ?_, ?_, ?_⟩
  · intro k hk
    rw [ht, List.get?_map, List.get?_range hk]
    rfl
  · intro k hk
    rw [ha, List.get?_map, List.get?_range hk]
    rfl
  · intro k hk
    rw [hv, List.get?_map, List.get?_range hk]
    rfl
  · intro k hk
    rw [hh, List.get?_map, List.get?_range hk]
    rfl
  · rintro m rfl
    have hflight : (compile_results cfg (sim_states cfg (m + 1))).total_flight_time =
        (m : ℝ) * cfg.global_params.time_step := by
      show (sim_states cfg (m + 1)).time.getLastD 0 = _
      rw [ht, List.range_succ, List.map_append, List.map_singleton,
        List.getLastD_concat]
    refine ⟨hflight, ?_⟩
    rw [hflight, (basicInv_sim cfg (m + 1)).cur_time]
    push_cast
    ring

/-- Deployment order on active records: earlier deployment time first, ties
    broken by position in the configured phase list. -/
def RecLE (cfg : Config) (r q : ActivePhase) : Prop :=
  r.deployment_time < q.deployment_time ∨
    (r.deployment_time = q.deployment_time ∧
      cfg.selected_phases.indexOf r.phase ≤ cfg.selected_phases.indexOf q.phase)

/-- The head of an active list is minimal for the deployment order. -/
def HeadMinL (cfg : Config) (l : List ActivePhase) : Prop :=
  ∀ h ∈ l.head?, ∀ q ∈ l, RecLE cfg h q

/-- All recorded deployment times lie at least one time step in the past. -/
def DepInv (cfg : Config) (s : SimState) : Prop :=
  ∀ r ∈ s.active_phases,
    r.deployment_time + cfg.global_params.time_step ≤ s.current_time

/-- In a duplicate free list, an element is indexed before the members of its
    tail part. -/
lemma indexOf_lt_of_split (a b : String) :
    ∀ (l1 l2 : List String), (l1 ++ a :: l2).Nodup → b ∈ l2 →
      (l1 ++ a :: l2).indexOf a < (l1 ++ a :: l2).indexOf b := by
  intro l1
  induction l1 with
  | nil =>
    intro l2 hnd hb
    simp only [List.nil_append]
    have hab : a ≠ b := by
      intro h
      exact (List.nodup_cons.mp hnd).1 (h ▸ hb)
    rw [List.indexOf_cons_self, List.indexOf_cons_ne _ hab]
    exact Nat.succ_pos _
  | cons c l1 ih =>
    intro l2 hnd hb
    have hnd2 : (l1 ++ a :: l2).Nodup := (List.nodup_cons.mp hnd).2
    have hc : c ∉ l1 ++ a :: l2 := (List.nodup_cons.mp hnd).1
    have hca : c ≠ a := fun h =>
      hc (h ▸ List.mem_append_right _ (List.mem_cons_self _ _))
    have hcb : c ≠ b := fun h =>
      hc (h ▸ List.mem_append_right _ (List.mem_cons_of_mem _ hb))
    simp only [List.cons_append]
    rw [List.indexOf_cons_ne _ hca, List.indexOf_cons_ne _ hcb]
    exact Nat.succ_lt_succ (ih l2 hnd2 hb)

/-- The deployment check preserves minimality of the head record: records
    deployed on this step carry the current time, which is later than every
    previously recorded deployment, and within the step the configured order
    decides. -/
lemma checkFold_headmin (cfg : Config) (hnd : cfg.selected_phases.Nodup) :
    ∀ (l2 l1 : List String) (s : SimState),
      cfg.selected_phases = l1 ++ l2 →
      HeadMinL cfg s.active_phases →
      (∀ r ∈ s.active_phases,
        r.deployment_time < s.current_time ∨
          (r.deployment_time = s.current_time ∧
            ∀ q ∈ l2, cfg.selected_phases.indexOf r.phase <
              cfg.selected_phases.indexOf q)) →
      HeadMinL cfg (l2.foldl (check_step cfg) s).active_phases ∧
      (∀ r ∈ (l2.foldl (check_step cfg) s).active_phases,
        r.deployment_time < s.current_time ∨ r.deployment_time = s.current_time) := by
  intro l2
  induction l2 with
  | nil =>
    intro l1 s hsel hhm hinv
    exact ⟨hhm, fun r hr => (hinv r hr).imp id And.left⟩
  | cons q l2 ih =>
    intro l1 s hsel hhm hinv
    rw [List.foldl_cons]
    by_cases hd : q ∈ s.deployed_phases
    · have hq : check_step cfg s q = s := by unfold check_step; rw [if_pos hd]
      rw [hq]
      refine ih (l1 ++ [q]) s (by rw [hsel, List.append_assoc]; rfl) hhm ?_
      intro r hr
      rcases hinv r hr with h | ⟨h1, h2⟩
      · exact Or.inl h
      · exact Or.inr ⟨h1, fun p hp => h2 p (List.mem_cons_of_mem _ hp)⟩
    · by_cases hc : s.current_altitude ≤ (cfg.phase_params q).deployment_altitude
      · have hq : check_step cfg s q = deploy_phase cfg s q := by
          unfold check_step
          rw [if_neg hd, if_pos hc]
        rw [hq]
        have hact : (deploy_phase cfg s q).active_phases =
            s.active_phases ++
              [{ phase := q, deployment_time := s.current_time,
                 inflation_time := calculate_inflation_time
                   (cfg.phase_params q).inflation_index
                   (cfg.phase_params q).diameter s.current_velocity,
                 params := cfg.phase_params q }] := rfl
        have hidxq : ∀ p ∈ l2, cfg.selected_phases.indexOf q <
            cfg.selected_phases.indexOf p := by
          intro p hp
          rw [hsel]
          exact indexOf_lt_of_split q p l1 l2 (hsel ▸ hnd) hp
        refine ih (l1 ++ [q]) (deploy_phase cfg s q)
          (by rw [hsel, List.append_assoc]; rfl) ?_ ?_
        · intro h hh q2 hq2
          rw [hact] at hh hq2
          cases hA : s.active_phases with
          | nil =>
            rw [hA] at hh hq2
            simp only [List.nil_append, List.head?_cons, Option.mem_some_iff] at hh
            subst hh
            rcases List.mem_singleton.mp hq2 with rfl
            exact Or.inr ⟨rfl, le_rfl⟩
          | cons a t =>
            rw [hA] at hh hq2
            simp only [List.cons_append, List.head?_cons, Option.mem_some_iff] at hh
            subst hh
            rcases List.mem_cons.mp hq2 with rfl | hq3
            · exact Or.inr ⟨rfl, le_rfl⟩
            · rcases List.mem_append.mp hq3 with hm | hm
              · exact hhm a (by rw [hA]; exact rfl) q2
                  (by rw [hA]; exact List.mem_cons_of_mem _ hm)
              · rcases List.mem_singleton.mp hm with rfl
                rcases hinv a (by rw [hA]; exact List.mem_cons_self _ _) with h1 | ⟨h1, h2⟩
                · exact Or.inl h1
                · exact Or.inr ⟨h1, le_of_lt (h2 q (List.mem_cons_self _ _))⟩
        · intro r hr
          rw [hact] at hr
          rcases List.mem_append.mp hr with hm | hm
          · rcases hinv r hm with h | ⟨h1, h2⟩
            · exact Or.inl h
            · exact Or.inr ⟨h1, fun p hp => h2 p (List.mem_cons_of_mem _ hp)⟩
          · rcases List.mem_singleton.mp hm with rfl
            exact Or.inr ⟨rfl, hidxq⟩
      · have hq : check_step cfg s q = s := by
          unfold check_step
          rw [if_neg hd, if_neg hc]
        rw [hq]
        refine ih (l1 ++ [q]) s (by rw [hsel, List.append_assoc]; rfl) hhm ?_
        intro r hr
        rcases hinv r hr with h | ⟨h1, h2⟩
        · exact Or.inl h
        · exact Or.inr ⟨h1, fun p hp => h2 p (List.mem_cons_of_mem _ hp)⟩

/-- Across the whole loop the head of the active list is the record of the
    earliest deployment, and all deployment times lie in the past. -/
lemma headmin_sim (cfg : Config) (hdt : 0 < cfg.global_params.time_step)
    (hnd : cfg.selected_phases.Nodup) :
    ∀ n, HeadMinL cfg (sim_states cfg n).active_phases ∧
      DepInv cfg (sim_states cfg n) := by
  intro n
  induction n with
  | zero =>
    constructor
    · intro h hh q hq
      simp [sim_states, init_state] at hh
    · intro r hr
      simp [sim_states, init_state] at hr
  | succ n ih =>
    obtain ⟨hhm, hdep⟩ := ih
    have hinv : ∀ r ∈ (sim_states cfg n).active_phases,
        r.deployment_time < (sim_states cfg n).current_time ∨
          (r.deployment_time = (sim_states cfg n).current_time ∧
            ∀ q ∈ cfg.selected_phases,
              cfg.selected_phases.indexOf r.phase <
                cfg.selected_phases.indexOf q) := by
      intro r hr
      left
      have := hdep r hr
      linarith
    obtain ⟨hhm2, hle⟩ := checkFold_headmin cfg hnd cfg.selected_phases []
      (sim_states cfg n) rfl hhm hinv
    constructor
    · exact hhm2
    · intro r hr
      have hr2 : r ∈ (cfg.selected_phases.foldl (check_step cfg)
          (sim_states cfg n)).active_phases := hr
      have hct : (sim_states cfg (n + 1)).current_time =
          (sim_states cfg n).current_time + cfg.global_params.time_step :=
        sim_step_current_time cfg (sim_states cfg n)
      rw [hct]
      rcases hle r hr2 with h | h
      · linarith
      · linarith

/-- Claim C5: the mass used by the net acceleration computation is the
    payload mass of the head of the active list, which is the record of the
    phase deployed first, in deployment time order with ties broken by the
    configured phase order; with no deployment yet it is the payload mass of
    the first configured phase. -/
theorem current_mass_C5 (cfg : Config) (hdt : 0 < cfg.global_params.time_step)
    (hnd : cfg.selected_phases.Nodup) (n : ℕ) :
    ((sim_states cfg n).deployed_phases = [] →
      get_current_mass cfg (sim_states cfg n) =
        (cfg.phase_params (cfg.selected_phases.headD "")).payload_mass) ∧
    (∀ r, (sim_states cfg n).active_phases.head? = some r →
      get_current_mass cfg (sim_states cfg n) = r.params.payload_mass ∧
      r.phase ∈ (sim_states cfg n).deployed_phases ∧
      ∀ q ∈ (sim_states cfg n).active_phases, RecLE cfg r q) := by
  constructor
  · intro hdep
    have hact : (sim_states cfg n).active_phases = [] := by
      cases hA : (sim_states cfg n).active_phases with
      | nil => rfl
      | cons a t =>
        have hm := (basicInv_sim cfg n).act_dep a
          (by rw [hA]; exact List.mem_cons_self _ _)
        rw [hdep] at hm
        exact absurd hm (List.not_mem_nil _)
    unfold get_current_mass
    rw [hact]
  · intro r hr
    obtain ⟨t, ht⟩ : ∃ t, (sim_states cfg n).active_phases = r :: t := by
      cases hA : (sim_states cfg n).active_phases with
      | nil =>
        rw [hA] at hr
        exact absurd hr (by simp)
      | cons a t =>
        rw [hA, List.head?_cons] at hr
        exact ⟨t, congrArg (fun x => x :: t) (Option.some_inj.mp hr)⟩
    refine ⟨?_, ?_, ?_⟩
    · unfold get_current_mass
      rw [ht]
    · exact (basicInv_sim cfg n).act_dep r (by rw [ht]; exact List.mem_cons_self _ _)
    · intro q hq
      exact (headmin_sim cfg hdt hnd n).1 r hr q hq

/-- The new velocity of one step, written through the state after the
    deployment check. -/
lemma sim_step_current_velocity_eq (cfg : Config) (s : SimState) :
    (sim_step cfg s).current_velocity =
      max 0 (s.current_velocity +
        (g * Real.cos (radians cfg.global_params.descent_angle) -
          ((check_phase_deployments cfg s).active_phases.map
              (phase_drag (check_phase_deployments cfg s))).sum /
            get_current_mass cfg (check_phase_deployments cfg s)) *
        cfg.global_params.time_step) := by
  have hm : get_current_mass cfg (calculate_forces cfg (check_phase_deployments cfg s)) =
      get_current_mass cfg (check_phase_deployments cfg s) := by
    unfold get_current_mass
    rfl
  have hv : (calculate_forces cfg (check_phase_deployments cfg s)).current_velocity =
      s.current_velocity := by
    show (check_phase_deployments cfg s).current_velocity = s.current_velocity
    exact (check_frame cfg s).cv.symm
  have htd : (calculate_forces cfg
        (check_phase_deployments cfg s)).total_drag_force.getLastD 0 =
      ((check_phase_deployments cfg s).active_phases.map
        (phase_drag (check_phase_deployments cfg s))).sum := by
    show ((check_phase_deployments cfg s).total_drag_force ++
        [((check_phase_deployments cfg s).active_phases.map
            (phase_drag (check_phase_deployments cfg s))).sum]).getLastD 0 = _
    rw [List.getLastD_concat]
  show max 0 ((calculate_forces cfg (check_phase_deployments cfg s)).current_velocity +
      (g * Real.cos (radians cfg.global_params.descent_angle) -
        (calculate_forces cfg
            (check_phase_deployments cfg s)).total_drag_force.getLastD 0 /
          get_current_mass cfg (calculate_forces cfg (check_phase_deployments cfg s))) *
      cfg.global_params.time_step) = _
  rw [hm, hv, htd]

/-- The new horizontal position of one step. -/
lemma sim_step_current_hpos_eq (cfg : Config) (s : SimState) :
    (sim_step cfg s).current_horizontal_pos =
      s.current_horizontal_pos +
        (sim_step cfg s).current_velocity *
          Real.sin (radians cfg.global_params.descent_angle) *
          cfg.global_params.time_step := by
  have hh : (calculate_forces cfg
      (check_phase_deployments cfg s)).current_horizontal_pos =
      s.current_horizontal_pos := by
    show (check_phase_deployments cfg s).current_horizontal_pos = _
    exact (check_frame cfg s).ch.symm
  show (calculate_forces cfg (check_phase_deployments cfg s)).current_horizontal_pos +
      (sim_step cfg s).current_velocity *
        Real.sin (radians cfg.global_params.descent_angle) *
        cfg.global_params.time_step = _
  rw [hh]

/-- Inflation time degenerates to 0 at nonpositive deployment velocity. -/
lemma inflation_time_zero_velocity (nf D v : ℝ) (hv : v ≤ 0) :
    calculate_inflation_time nf D v = 0 := by
  unfold calculate_inflation_time
  rw [if_pos hv]

/-- The drag contribution of any record vanishes at nonpositive velocity. -/
lemma phase_drag_zero_velocity (s : SimState) (r : ActivePhase)
    (hv : s.current_velocity ≤ 0) : phase_drag s r = 0 := by
  unfold phase_drag
  rw [calculate_drag_force_eq, if_pos hv]

lemma foldl_max_replicate_zero : ∀ n, (List.replicate n (0 : ℝ)).foldl max 0 = 0
  | 0 => rfl
  | n + 1 => by
    show (List.replicate n (0 : ℝ)).foldl max (max 0 0) = 0
    rw [max_self]
    exact foldl_max_replicate_zero n

lemma listMax_replicate_zero (n : ℕ) : listMax (List.replicate n (0 : ℝ)) = 0 := by
  cases n with
  | zero => rfl
  | succ n =>
    show (List.replicate n (0 : ℝ)).foldl max 0 = 0
    exact foldl_max_replicate_zero n

lemma getLastD_replicate (x d : ℝ) : ∀ n, (List.replicate (n + 1) x).getLastD d = x := by
  intro n
  induction n generalizing d with
  | zero => rfl
  | succ n ih =>
    rw [List.replicate_succ, List.getLastD_cons]
    exact ih x

/-- Phase parameters of the concrete examples. -/
noncomputable def mainParamsC3 : PhaseParams :=
  { diameter := 20, drag_coefficient := 1.5, deployment_altitude := 1000,
    inflation_index := 5, payload_mass := 100, reefing_factor := 0.3 }

/-- A configuration whose run never descends: zero initial velocity and a 90
    degree descent angle make the gravity component along the flight path
    zero, so the loop can only end through the 10000 second safety ceiling. -/
noncomputable def gpC3 : GlobalParams :=
  { initial_altitude := 100, initial_velocity := 0, time_step := 1,
    descent_angle := 90 }

noncomputable def cfgC3 : Config :=
  { global_params := gpC3,
    phase_params := fun _ => mainParamsC3,
    selected_phases := ["Main"] }

/-- The single active record of the ceiling example: deployed at time 0 with
    zero velocity, hence zero inflation time. -/
noncomputable def c3_record : ActivePhase :=
  { phase := "Main", deployment_time := 0, inflation_time := 0,
    params := mainParamsC3 }

/-- Closed form of the ceiling example state after k loop iterations, valid
    for k at least 1. -/
noncomputable def c3_state (k : ℕ) : SimState :=
  { time := (List.range k).map (fun i : ℕ => (i : ℝ)),
    altitude := List.replicate k 100,
    velocity := List.replicate k 0,
    total_drag_force := List.replicate k 0,
    phase_drag_forces := fun p => if p = "Main" then List.replicate k 0 else [],
    horizontal_position := List.replicate k 0,
    current_time := (k : ℝ),
    current_altitude := 100,
    current_velocity := 0,
    current_horizontal_pos := 0,
    active_phases := [c3_record],
    deployed_phases := ["Main"],
    phase_deployment_times := fun _ => 0,
    phase_inflation_times := fun _ => 0 }

lemma cos_radians_cfgC3 :
    Real.cos (radians cfgC3.global_params.descent_angle) = 0 := by
  have h : radians cfgC3.global_params.descent_angle = Real.pi / 2 := by
    show (90 : ℝ) * (Real.pi / 180) = Real.pi / 2
    ring
  rw [h, Real.cos_pi_div_two]

lemma c3_check0 : check_phase_deployments cfgC3 (init_state cfgC3) =
    deploy_phase cfgC3 (init_state cfgC3) "Main" := by
  show check_step cfgC3 (init_state cfgC3) "Main" = _
  have hc : (init_state cfgC3).current_altitude ≤
      (cfgC3.phase_params "Main").deployment_altitude := by
    show (100 : ℝ) ≤ 1000
    norm_num
  have hd : ("Main" : String) ∉ (init_state cfgC3).deployed_phases :=
    List.not_mem_nil _
  unfold check_step
  rw [if_neg hd, if_pos hc]

lemma c3_check_succ (k : ℕ) :
    check_phase_deployments cfgC3 (c3_state (k + 1)) = c3_state (k + 1) := by
  show check_step cfgC3 (c3_state (k + 1)) "Main" = _
  have hd : "Main" ∈ (c3_state (k + 1)).deployed_phases :=
    List.mem_cons_self _ _
  unfold check_step
  rw [if_pos hd]

lemma c3_sim_one : sim_step cfgC3 (init_state cfgC3) = c3_state 1 := by
  have hcv : (init_state cfgC3).current_velocity ≤ 0 := le_of_eq rfl
  have hdv : (deploy_phase cfgC3 (init_state cfgC3) "Main").current_velocity ≤ 0 :=
    hcv
  have hsum : ((check_phase_deployments cfgC3 (init_state cfgC3)).active_phases.map
      (phase_drag (check_phase_deployments cfgC3 (init_state cfgC3)))).sum = 0 := by
    rw [c3_check0]
    show [phase_drag (deploy_phase cfgC3 (init_state cfgC3) "Main") _].sum = 0
    rw [List.sum_singleton]
    exact phase_drag_zero_velocity _ _ hdv
  have hvel : (sim_step cfgC3 (init_state cfgC3)).current_velocity = 0 := by
    rw [sim_step_current_velocity_eq, hsum, cos_radians_cfgC3]
    show max 0 ((0 : ℝ) + (g * 0 - 0 / _) * 1) = 0
    simp
  refine SimState.ext ?_ ?_ ?_ ?_ ?_ ?_ ?_ ?_ ?_ ?_ ?_ ?_ ?_ ?_
  · rw [sim_step_time_series]
    show [(0 : ℝ)] = (List.range 1).map (fun i : ℕ => (i : ℝ))
    simp [List.range_succ]
  · rw [sim_step_altitude_series, sim_step_current_altitude, hvel]
    show ([] : List ℝ) ++ [max 0 ((100 : ℝ) - 0 * 1)] = [(100 : ℝ)]
    norm_num
  · rw [sim_step_velocity_series, hvel]
    rfl
  · rw [sim_step_total_series, hsum]
    rfl
  · funext p
    rw [sim_step_pdf, c3_check0]
    by_cases hp : p ∈ cfgC3.selected_phases
    · rw [if_pos hp]
      have hpm : p = "Main" := List.mem_singleton.mp hp
      subst hpm
      show ([] : List ℝ) ++
          [drag_row (deploy_phase cfgC3 (init_state cfgC3) "Main") "Main"] =
        (c3_state 1).phase_drag_forces "Main"
      have hrow : drag_row (deploy_phase cfgC3 (init_state cfgC3) "Main") "Main" = 0 := by
        show (if ("Main" : String) = "Main" then
            phase_drag (deploy_phase cfgC3 (init_state cfgC3) "Main")
              (ActivePhase.mk "Main" (init_state cfgC3).current_time
                (calculate_inflation_time (cfgC3.phase_params "Main").inflation_index
                  (cfgC3.phase_params "Main").diameter
                  (init_state cfgC3).current_velocity)
                (cfgC3.phase_params "Main"))
          else (0 : ℝ)) = 0
        rw [if_pos rfl]
        exact phase_drag_zero_velocity _ _ hdv
      rw [hrow]
      show [(0 : ℝ)] = if ("Main" : String) = "Main" then [(0 : ℝ)] else []
      rw [if_pos rfl]
    · rw [if_neg hp]
      have hpm : ¬ p = "Main" := fun h => hp (h ▸ List.mem_singleton_self _)
      show ([] : List ℝ) = if p = "Main" then List.replicate 1 0 else []
      rw [if_neg hpm]
  · rw [sim_step_hpos_series, sim_step_current_hpos_eq, hvel]
    show ([] : List ℝ) ++ [(0 : ℝ) + 0 * Real.sin (radians cfgC3.global_params.descent_angle) * 1] =
      [(0 : ℝ)]
    norm_num
  · rw [sim_step_current_time]
    show (0 : ℝ) + 1 = ((1 : ℕ) : ℝ)
    norm_num
  · rw [sim_step_current_altitude, hvel]
    show (100 : ℝ) - 0 * 1 = 100
    norm_num
  · exact hvel
  · rw [sim_step_current_hpos_eq, hvel]
    show (0 : ℝ) + 0 * Real.sin (radians cfgC3.global_params.descent_angle) * 1 = 0
    norm_num
  · rw [sim_step_active, c3_check0]
    show [ActivePhase.mk "Main" (0 : ℝ)
        (calculate_inflation_time
          (cfgC3.phase_params "Main").inflation_index
          (cfgC3.phase_params "Main").diameter
          (init_state cfgC3).current_velocity)
        (cfgC3.phase_params "Main")] = [c3_record]
    rw [inflation_time_zero_velocity _ _ _ hcv]
    rfl
  · rw [sim_step_deployed, c3_check0]
    rfl
  · rw [sim_step_dep_times, c3_check0]
    funext q
    show (if q = "Main" then (0 : ℝ) else 0) = 0
    split <;> rfl
  · rw [sim_step_infl_times, c3_check0]
    funext q
    show (if q = "Main" then calculate_inflation_time
        (cfgC3.phase_params "Main").inflation_index
        (cfgC3.phase_params "Main").diameter
        (init_state cfgC3).current_velocity else (0 : ℝ)) = 0
    rw [inflation_time_zero_velocity _ _ _ hcv]
    split <;> rfl

lemma c3_step (k : ℕ) (hk : 1 ≤ k) :
    sim_step cfgC3 (c3_state k) = c3_state (k + 1) := by
  obtain ⟨j, rfl⟩ : ∃ j, k = j + 1 := ⟨k - 1, by omega⟩
  have hcv : (c3_state (j + 1)).current_velocity ≤ 0 := le_of_eq rfl
  have hcheck := c3_check_succ j
  have hsum : ((check_phase_deployments cfgC3 (c3_state (j + 1))).active_phases.map
      (phase_drag (check_phase_deployments cfgC3 (c3_state (j + 1))))).sum = 0 := by
    rw [hcheck]
    show [phase_drag (c3_state (j + 1)) c3_record].sum = 0
    rw [List.sum_singleton]
    exact phase_drag_zero_velocity _ _ hcv
  have hvel : (sim_step cfgC3 (c3_state (j + 1))).current_velocity = 0 := by
    rw [sim_step_current_velocity_eq, hsum, hcheck, cos_radians_cfgC3]
    show max 0 ((0 : ℝ) + (g * 0 - 0 / get_current_mass cfgC3 (c3_state (j + 1))) * 1) = 0
    simp
  refine SimState.ext ?_ ?_ ?_ ?_ ?_ ?_ ?_ ?_ ?_ ?_ ?_ ?_ ?_ ?_
  · rw [sim_step_time_series]
    show (List.range (j + 1)).map (fun i : ℕ => (i : ℝ)) ++ [((j + 1 : ℕ) : ℝ)] =
      (List.range (j + 2)).map (fun i : ℕ => (i : ℝ))
    conv_rhs => rw [List.range_succ, List.map_append]
    rfl
  · rw [sim_step_altitude_series, sim_step_current_altitude, hvel]
    show List.replicate (j + 1) (100 : ℝ) ++ [max 0 ((100 : ℝ) - 0 * 1)] =
      List.replicate (j + 2) (100 : ℝ)
    have h100 : max (0 : ℝ) (100 - 0 * 1) = 100 := by
      rw [show (100 : ℝ) - 0 * 1 = 100 by ring]
      exact max_eq_right (by norm_num)
    rw [h100]
    conv_rhs => rw [List.replicate_succ']
  · rw [sim_step_velocity_series, hvel]
    show List.replicate (j + 1) (0 : ℝ) ++ [(0 : ℝ)] = List.replicate (j + 2) (0 : ℝ)
    conv_rhs => rw [List.replicate_succ']
  · rw [sim_step_total_series, hsum]
    show List.replicate (j + 1) (0 : ℝ) ++ [(0 : ℝ)] = List.replicate (j + 2) (0 : ℝ)
    conv_rhs => rw [List.replicate_succ']
  · funext p
    rw [sim_step_pdf, hcheck]
    by_cases hp : p ∈ cfgC3.selected_phases
    · rw [if_pos hp]
      have hpm : p = "Main" := List.mem_singleton.mp hp
      subst hpm
      have hrow : drag_row (c3_state (j + 1)) "Main" = 0 := by
        show (if ("Main" : String) = "Main" then
            phase_drag (c3_state (j + 1)) c3_record else (0 : ℝ)) = 0
        rw [if_pos rfl]
        exact phase_drag_zero_velocity _ _ hcv
      rw [hrow]
      show (if ("Main" : String) = "Main" then List.replicate (j + 1) (0 : ℝ) else []) ++
          [(0 : ℝ)] =
        (if ("Main" : String) = "Main" then List.replicate (j + 2) (0 : ℝ) else [])
      rw [if_pos rfl, if_pos rfl]
      conv_rhs => rw [List.replicate_succ']
    · rw [if_neg hp]
      have hpm : ¬ p = "Main" := fun h => hp (h ▸ List.mem_singleton_self _)
      show (if p = "Main" then List.replicate (j + 1) (0 : ℝ) else []) =
        (if p = "Main" then List.replicate (j + 2) (0 : ℝ) else [])
      rw [if_neg hpm, if_neg hpm]
  · rw [sim_step_hpos_series, sim_step_current_hpos_eq, hvel]
    show List.replicate (j + 1) (0 : ℝ) ++
        [(0 : ℝ) + 0 * Real.sin (radians cfgC3.global_params.descent_angle) * 1] =
      List.replicate (j + 2) (0 : ℝ)
    rw [show (0 : ℝ) + 0 * Real.sin (radians cfgC3.global_params.descent_angle) * 1 = 0
      by ring]
    conv_rhs => rw [List.replicate_succ']
  · rw [sim_step_current_time]
    show ((j + 1 : ℕ) : ℝ) + 1 = ((j + 2 : ℕ) : ℝ)
    push_cast
    ring
  · rw [sim_step_current_altitude, hvel]
    show (100 : ℝ) - 0 * 1 = 100
    ring
  · exact hvel
  · rw [sim_step_current_hpos_eq, hvel]
    show (0 : ℝ) + 0 * Real.sin (radians cfgC3.global_params.descent_angle) * 1 = 0
    ring
  · rw [sim_step_active, hcheck]
    rfl
  · rw [sim_step_deployed, hcheck]
    rfl
  · rw [sim_step_dep_times, hcheck]
    rfl
  · rw [sim_step_infl_times, hcheck]
    rfl

lemma c3_closed : ∀ k, sim_states cfgC3 (k + 1) = c3_state (k + 1) := by
  intro k
  induction k with
  | zero => exact c3_sim_one
  | succ k ih =>
    show sim_step cfgC3 (sim_states cfgC3 (k + 1)) = _
    rw [ih]
    exact c3_step (k + 1) (by omega)

lemma c3_run_aux : ∀ (m k : ℕ), 1 ≤ k → k ≤ 10000 → 10001 ≤ k + m →
    run_aux cfgC3 m (c3_state k) = c3_state 10001 := by
  intro m
  induction m with
  | zero => intro k h1 h2 h3; omega
  | succ m ih =>
    intro k h1 h2 h3
    have halt : 0 < (c3_state k).current_altitude := by
      show (0 : ℝ) < 100
      norm_num
    show (if 0 < (c3_state k).current_altitude then
        if 10000 < (sim_step cfgC3 (c3_state k)).current_time then
          sim_step cfgC3 (c3_state k)
        else run_aux cfgC3 m (sim_step cfgC3 (c3_state k))
      else c3_state k) = c3_state 10001
    rw [if_pos halt, c3_step k h1]
    by_cases hk : k = 10000
    · subst hk
      have hgt : (10000 : ℝ) < (c3_state (10000 + 1)).current_time := by
        show (10000 : ℝ) < ((10000 + 1 : ℕ) : ℝ)
        push_cast
        norm_num
      rw [if_pos hgt]
    · have hle : ¬ (10000 : ℝ) < (c3_state (k + 1)).current_time := by
        show ¬ (10000 : ℝ) < ((k + 1 : ℕ) : ℝ)
        push_cast
        have hk1 : (k : ℝ) + 1 ≤ 10000 := by
          have h : k + 1 ≤ 10000 := by omega
          exact_mod_cast h
        linarith
      rw [if_neg hle]
      exact ih (k + 1) (by omega) (by omega) (by omega)

lemma c3_run (fuel : ℕ) (hf : 10001 ≤ fuel) :
    run_aux cfgC3 fuel (init_state cfgC3) = c3_state 10001 := by
  obtain ⟨m, rfl⟩ : ∃ m, fuel = m + 1 := ⟨fuel - 1, by omega⟩
  have halt : 0 < (init_state cfgC3).current_altitude := by
    show (0 : ℝ) < 100
    norm_num
  show (if 0 < (init_state cfgC3).current_altitude then
      if 10000 < (sim_step cfgC3 (init_state cfgC3)).current_time then
        sim_step cfgC3 (init_state cfgC3)
      else run_aux cfgC3 m (sim_step cfgC3 (init_state cfgC3))
    else init_state cfgC3) = c3_state 10001
  rw [if_pos halt, c3_sim_one]
  have hle : ¬ (10000 : ℝ) < (c3_state 1).current_time := by
    show ¬ (10000 : ℝ) < ((1 : ℕ) : ℝ)
    push_cast
    norm_num
  rw [if_neg hle]
  exact c3_run_aux m 1 le_rfl (by norm_num) (by omega)

/-- Reductions of the compiled metrics of the ceiling example state. -/
lemma c3_fields (k : ℕ) :
    (c3_state (k + 1)).velocity.getLastD 0 = 0 ∧
    (c3_state (k + 1)).horizontal_position.getLastD 0 = 0 ∧
    (c3_state (k + 1)).altitude.getLastD 0 = 100 ∧
    (c3_state (k + 1)).time.getLastD 0 = (k : ℝ) ∧
    listMax (c3_state (k + 1)).total_drag_force = 0 ∧
    listMax ((c3_state (k + 1)).phase_drag_forces "Main") = 0 := by
  refine ⟨getLastD_replicate 0 0 k, getLastD_replicate 0 0 k,
    getLastD_replicate 100 0 k, ?_, listMax_replicate_zero (k + 1), ?_⟩
  · show ((List.range (k + 1)).map (fun i : ℕ => (i : ℝ))).getLastD 0 = _
    rw [List.range_succ, List.map_append, List.map_singleton, List.getLastD_concat]
  · show listMax (if ("Main" : String) = "Main" then
      List.replicate (k + 1) (0 : ℝ) else []) = 0
    rw [if_pos rfl]
    exact listMax_replicate_zero (k + 1)

/-- Compiled results of the ceiling example, for a symbolic iteration count. -/
lemma c3_compile (k : ℕ) :
    compile_results cfgC3 (c3_state (k + 1)) =
      Results.mk 0 0 (k : ℝ) 0 100 [PhaseResult.mk "Main" 0 0 0] := by
  obtain ⟨h2, h4, h5, h3, h1, h6⟩ := c3_fields k
  refine Results.ext h1 h2 h3 h4 h5 ?_
  show [PhaseResult.mk "Main"
      (listMax ((c3_state (k + 1)).phase_drag_forces "Main"))
      ((c3_state (k + 1)).phase_deployment_times "Main")
      ((c3_state (k + 1)).phase_inflation_times "Main")] =
    [PhaseResult.mk "Main" 0 0 0]
  rw [h6]
  rfl

/-- Claim C3 (code bug): a run that only terminates through the 10000 second
    safety ceiling, with the craft still at altitude 100, returns the very
    same plain results record shape as a landed run, with every field an
    ordinary metric and no distinct did-not-land marker; only the final
    altitude value betrays that the ground was never reached. -/
theorem ceiling_outcome_C3 (fuel : ℕ) (hf : 10001 ≤ fuel) :
    (run_aux cfgC3 fuel (init_state cfgC3)).current_altitude = 100 ∧
    (run_aux cfgC3 fuel (init_state cfgC3)).current_time = 10001 ∧
    run cfgC3 fuel = Results.mk 0 0 10000 0 100 [PhaseResult.mk "Main" 0 0 0] := by
  have hrun : run_aux cfgC3 fuel (init_state cfgC3) = c3_state (10000 + 1) := by
    rw [c3_run fuel hf]
  refine ⟨by rw [hrun]; rfl, ?_, ?_⟩
  · rw [hrun]
    show ((10000 + 1 : ℕ) : ℝ) = 10001
    push_cast
    norm_num
  · unfold run
    rw [hrun, c3_compile 10000]
    norm_num

/-- Witness for claim C3 at the minimal fuel. -/
theorem ceiling_outcome_C3_witness :
    10001 ≤ 10001 ∧
      run cfgC3 10001 = Results.mk 0 0 10000 0 100 [PhaseResult.mk "Main" 0 0 0] :=
  ⟨le_rfl, (ceiling_outcome_C3 10001 le_rfl).2.2⟩

/-- Global parameters of the degenerate example: starting on the ground with
    a nonzero initial velocity. -/
noncomputable def gpC4 : GlobalParams :=
  { initial_altitude := 0, initial_velocity := 50, time_step := 1,
    descent_angle := 0 }

noncomputable def cfgC4 : Config :=
  { global_params := gpC4,
    phase_params := fun _ => mainParamsC3,
    selected_phases := ["Main"] }

/-- The loop body never runs when the initial altitude is not positive. -/
lemma run_aux_grounded (cfg : Config) (fuel : ℕ) (s : SimState)
    (h : ¬ 0 < s.current_altitude) : run_aux cfg fuel s = s := by
  cases fuel with
  | zero => rfl
  | succ fuel =>
    show (if 0 < s.current_altitude then
        if 10000 < (sim_step cfg s).current_time then sim_step cfg s
        else run_aux cfg fuel (sim_step cfg s)
      else s) = s
    rw [if_neg h]

/-- Counterexample to claim C4 as stated: with initial altitude 0 and initial
    velocity 50, the reported landing velocity is the empty series default 0
    and not the initial velocity. -/
theorem degenerate_run_C4_counterexample :
    cfgC4.global_params.initial_altitude = 0 ∧
    (run cfgC4 5).landing_velocity ≠ cfgC4.global_params.initial_velocity := by
  have hna : ¬ 0 < (init_state cfgC4).current_altitude := by
    show ¬ (0 : ℝ) < 0
    exact lt_irrefl 0
  have hr := run_aux_grounded cfgC4 5 (init_state cfgC4) hna
  refine ⟨rfl, ?_⟩
  unfold run
  rw [hr]
  show (0 : ℝ) ≠ 50
  norm_num

/-- Claim C4 (amended): for every run whose initial altitude is 0 the loop
    never iterates, so the time series is empty, hence has at most one
    sample, the reported total flight time is 0, and the reported landing
    velocity is the empty series default 0, which equals the initial
    velocity only when that velocity is 0. -/
theorem degenerate_run_C4 (cfg : Config) (fuel : ℕ)
    (h0 : cfg.global_params.initial_altitude = 0) :
    run_aux cfg fuel (init_state cfg) = init_state cfg ∧
    (run_aux cfg fuel (init_state cfg)).time.length = 0 ∧
    (run cfg fuel).landing_velocity = 0 ∧
    (run cfg fuel).total_flight_time = 0 := by
  have hna : ¬ 0 < (init_state cfg).current_altitude := by
    show ¬ 0 < cfg.global_params.initial_altitude
    rw [h0]
    exact lt_irrefl 0
  have hr := run_aux_grounded cfg fuel (init_state cfg) hna
  refine ⟨hr, by rw [hr]; rfl, ?_, ?_⟩
  · unfold run
    rw [hr]
    rfl
  · unfold run
    rw [hr]
    rfl

/-- Witness for the amended claim C4 at a concrete configuration. -/
theorem degenerate_run_C4_witness :
    cfgC4.global_params.initial_altitude = 0 ∧
    (run cfgC4 3).landing_velocity = 0 ∧ (run cfgC4 3).total_flight_time = 0 :=
  ⟨rfl, (degenerate_run_C4 cfgC4 3 rfl).2.2.1, (degenerate_run_C4 cfgC4 3 rfl).2.2.2⟩

/-- Two phase parameter records that agree except possibly in the reefing
    factor. -/
def ParamsEqExceptReefing (a b : PhaseParams) : Prop :=
  a.diameter = b.diameter ∧ a.drag_coefficient = b.drag_coefficient ∧
  a.deployment_altitude = b.deployment_altitude ∧
  a.inflation_index = b.inflation_index ∧ a.payload_mass = b.payload_mass

/-- Two configurations that agree except possibly in the reefing factor of
    one phase p. -/
def ConfigEqExceptReefing (cfg cfg2 : Config) (p : String) : Prop :=
  cfg.global_params = cfg2.global_params ∧
  cfg.selected_phases = cfg2.selected_phases ∧
  (∀ q, q ≠ p → cfg.phase_params q = cfg2.phase_params q) ∧
  ParamsEqExceptReefing (cfg.phase_params p) (cfg2.phase_params p)

/-- Relation between active records of the two runs of claim C9: identical
    except possibly the reefing factor of phase p, whose recorded inflation
    time is 0. -/
structure RecRel (p : String) (r r2 : ActivePhase) : Prop where
  ph : r.phase = r2.phase
  dtime : r.deployment_time = r2.deployment_time
  itime : r.inflation_time = r2.inflation_time
  prs : r.phase ≠ p → r.params = r2.params
  prp : r.phase = p → ParamsEqExceptReefing r.params r2.params ∧ r.inflation_time = 0

/-- Relation between the two simulation states of claim C9: every observable
    field is equal; the active records may differ only in the stored reefing
    factor of phase p, which then has inflation time 0. -/
structure StateRel (p : String) (s s2 : SimState) : Prop where
  tm : s.time = s2.time
  al : s.altitude = s2.altitude
  ve : s.velocity = s2.velocity
  td : s.total_drag_force = s2.total_drag_force
  pdf : s.phase_drag_forces = s2.phase_drag_forces
  hp : s.horizontal_position = s2.horizontal_position
  ct : s.current_time = s2.current_time
  ca : s.current_altitude = s2.current_altitude
  cv : s.current_velocity = s2.current_velocity
  ch : s.current_horizontal_pos = s2.current_horizontal_pos
  act : List.Forall₂ (RecRel p) s.active_phases s2.active_phases
  dep : s.deployed_phases = s2.deployed_phases
  dtim : s.phase_deployment_times = s2.phase_deployment_times
  itim : s.phase_inflation_times = s2.phase_inflation_times

/-- Related records feel the same drag in related states, because a record of
    phase p carries inflation time 0, so its reefing factor is never read. -/
lemma phase_drag_rel (p : String) {s s2 : SimState}
    (hct : s.current_time = s2.current_time)
    (hca : s.current_altitude = s2.current_altitude)
    (hcv : s.current_velocity = s2.current_velocity)
    {r r2 : ActivePhase} (hr : RecRel p r r2)
    (hdep : r.deployment_time ≤ s.current_time) :
    phase_drag s r = phase_drag s2 r2 := by
  unfold phase_drag
  rw [← hct, ← hca, ← hcv, ← hr.dtime, ← hr.itime]
  by_cases hq : r.phase = p
  · obtain ⟨hpe, hi0⟩ := hr.prp hq
    rw [calculate_drag_force_eq, calculate_drag_force_eq, hi0]
    by_cases hv0 : s.current_velocity ≤ 0
    · rw [if_pos hv0, if_pos hv0]
    · rw [if_neg hv0, if_neg hv0]
      have ht : ¬ s.current_time - r.deployment_time < 0 := by
        push_neg
        linarith
      rw [if_neg ht, if_neg ht, hpe.1, hpe.2.1]
  · rw [hr.prs hq]

/-- The drag rows of related states agree. -/
lemma drag_row_rel_fold (p : String) {s s2 : SimState}
    (hct : s.current_time = s2.current_time)
    (hca : s.current_altitude = s2.current_altitude)
    (hcv : s.current_velocity = s2.current_velocity) :
    ∀ {l l2 : List ActivePhase}, List.Forall₂ (RecRel p) l l2 →
      (∀ r ∈ l, r.deployment_time ≤ s.current_time) →
      ∀ row row2 : String → ℝ, row = row2 →
      l.foldl (fun row r => fun q => if q = r.phase then phase_drag s r else row q) row =
      l2.foldl (fun row r => fun q => if q = r.phase then phase_drag s2 r else row q) row2 := by
  intro l l2 hrel
  induction hrel with
  | nil => intro _ row row2 h; exact h
  | cons hr hrest ih =>
    intro hdep row row2 hrow
    rw [List.foldl_cons, List.foldl_cons]
    refine ih (fun r hm => hdep r (List.mem_cons_of_mem _ hm)) _ _ ?_
    funext q
    rw [hrow, hr.ph, phase_drag_rel p hct hca hcv hr
      (hdep _ (List.mem_cons_self _ _))]

lemma drag_row_rel (p : String) {s s2 : SimState}
    (hct : s.current_time = s2.current_time)
    (hca : s.current_altitude = s2.current_altitude)
    (hcv : s.current_velocity = s2.current_velocity)
    (hrel : List.Forall₂ (RecRel p) s.active_phases s2.active_phases)
    (hdep : ∀ r ∈ s.active_phases, r.deployment_time ≤ s.current_time) :
    drag_row s = drag_row s2 :=
  drag_row_rel_fold p hct hca hcv hrel hdep _ _ rfl

lemma drag_sum_rel (p : String) {s s2 : SimState}
    (hct : s.current_time = s2.current_time)
    (hca : s.current_altitude = s2.current_altitude)
    (hcv : s.current_velocity = s2.current_velocity) :
    ∀ {l l2 : List ActivePhase}, List.Forall₂ (RecRel p) l l2 →
      (∀ r ∈ l, r.deployment_time ≤ s.current_time) →
      (l.map (phase_drag s)).sum = (l2.map (phase_drag s2)).sum := by
  intro l l2 hrel
  induction hrel with
  | nil => intro _; rfl
  | cons hr hrest ih =>
    intro hdep
    rw [List.map_cons, List.map_cons, List.sum_cons, List.sum_cons]
    rw [phase_drag_rel p hct hca hcv hr (hdep _ (List.mem_cons_self _ _))]
    rw [ih (fun r hm => hdep r (List.mem_cons_of_mem _ hm))]

/-- One deployment check step preserves the state relation, provided phase p
    can only deploy at nonpositive velocity. -/
lemma check_step_rel (cfg cfg2 : Config) (p : String)
    (hcfg : ConfigEqExceptReefing cfg cfg2 p) (q : String)
    {s s2 : SimState} (hrel : StateRel p s s2)
    (hv : q = p → q ∉ s.deployed_phases →
      s.current_altitude ≤ (cfg.phase_params q).deployment_altitude →
      s.current_velocity ≤ 0) :
    StateRel p (check_step cfg s q) (check_step cfg2 s2 q) := by
  obtain ⟨hgp, hsel, hqs, hpe⟩ := hcfg
  obtain ⟨he1, he2, he3, he4, he5⟩ := hpe
  have hthresh : (cfg.phase_params q).deployment_altitude =
      (cfg2.phase_params q).deployment_altitude := by
    by_cases hq : q = p
    · subst hq
      exact he3
    · rw [hqs q hq]
  have hinfl : calculate_inflation_time (cfg.phase_params q).inflation_index
      (cfg.phase_params q).diameter s.current_velocity =
      calculate_inflation_time (cfg2.phase_params q).inflation_index
      (cfg2.phase_params q).diameter s2.current_velocity := by
    by_cases hq : q = p
    · subst hq
      rw [he4, he1, ← hrel.cv]
    · rw [hqs q hq, ← hrel.cv]
  unfold check_step
  rw [← hrel.dep, ← hrel.ca, ← hthresh]
  by_cases hd : q ∈ s.deployed_phases
  · rw [if_pos hd, if_pos hd]
    exact hrel
  · rw [if_neg hd, if_neg hd]
    by_cases hc : s.current_altitude ≤ (cfg.phase_params q).deployment_altitude
    · rw [if_pos hc, if_pos hc]
      simp only [deploy_phase]
      refine ⟨hrel.tm, hrel.al, hrel.ve, hrel.td, hrel.pdf, hrel.hp, hrel.ct,
        hrel.ca, hrel.cv, hrel.ch, ?_, ?_, ?_, ?_⟩
      · refine List.rel_append hrel.act (List.Forall₂.cons ?_ List.Forall₂.nil)
        refine ⟨rfl, hrel.ct, hinfl, ?_, ?_⟩
        · intro hq
          rw [hqs q hq]
        · intro hq
          subst hq
          refine ⟨⟨he1, he2, he3, he4, he5⟩, ?_⟩
          exact inflation_time_zero_velocity _ _ _ (hv rfl hd hc)
      · rw [hrel.dep]
      · funext q2
        rw [hrel.dtim, hrel.ct]
      · funext q2
        rw [hrel.itim, hinfl]
    · rw [if_neg hc, if_neg hc]
      exact hrel

/-- The whole deployment check preserves the state relation. -/
lemma checkFold_rel (cfg cfg2 : Config) (p : String)
    (hcfg : ConfigEqExceptReefing cfg cfg2 p) :
    ∀ (l : List String) {s s2 : SimState}, StateRel p s s2 →
      (p ∉ s.deployed_phases →
        s.current_altitude ≤ (cfg.phase_params p).deployment_altitude →
        s.current_velocity ≤ 0) →
      StateRel p (l.foldl (check_step cfg) s) (l.foldl (check_step cfg2) s2) := by
  intro l
  induction l with
  | nil => intro s s2 hrel _; exact hrel
  | cons q l ih =>
    intro s s2 hrel hv
    rw [List.foldl_cons, List.foldl_cons]
    have hstep := check_step_rel cfg cfg2 p hcfg q hrel (by
      intro hq
      subst hq
      exact hv)
    refine ih hstep ?_
    intro hnd hca
    have hca2 : s.current_altitude ≤
        (cfg.phase_params p).deployment_altitude := by
      rw [(check_step_frame cfg s q).ca]
      exact hca
    have hnd2 : p ∉ s.deployed_phases := by
      intro hmem
      exact hnd ((check_step_deployed_mem cfg s q p).mpr (Or.inl hmem))
    rw [← (check_step_frame cfg s q).cv]
    exact hv hnd2 hca2

/-- With a nonnegative time step, recorded deployment times never lie in the
    future. -/
lemma depLe_sim (cfg : Config) (hdt : 0 ≤ cfg.global_params.time_step) :
    ∀ n, ∀ r ∈ (sim_states cfg n).active_phases,
      r.deployment_time ≤ (sim_states cfg n).current_time := by
  intro n
  induction n with
  | zero => intro r hr; exact absurd hr (List.not_mem_nil r)
  | succ n ih =>
    intro r hr
    have hstep : sim_states cfg (n + 1) = sim_step cfg (sim_states cfg n) := rfl
    rw [hstep, sim_step_active] at hr
    rw [hstep, sim_step_current_time]
    obtain ⟨new, hact, hprops⟩ := checkFold_active cfg cfg.selected_phases
      (sim_states cfg n)
    have hr2 : r ∈ (sim_states cfg n).active_phases ++ new := by
      have h1 : (check_phase_deployments cfg (sim_states cfg n)).active_phases =
          (sim_states cfg n).active_phases ++ new := hact
      rw [← h1]
      exact hr
    rcases List.mem_append.mp hr2 with hm | hm
    · have := ih r hm
      linarith
    · have := (hprops r hm).1
      rw [this]
      linarith

/-- One whole loop iteration preserves the state relation of claim C9. -/
lemma sim_step_rel (cfg cfg2 : Config) (p : String)
    (hcfg : ConfigEqExceptReefing cfg cfg2 p)
    {s s2 : SimState} (hrel : StateRel p s s2)
    (hdep : ∀ r ∈ s.active_phases, r.deployment_time ≤ s.current_time)
    (hv : p ∉ s.deployed_phases →
      s.current_altitude ≤ (cfg.phase_params p).deployment_altitude →
      s.current_velocity ≤ 0) :
    StateRel p (sim_step cfg s) (sim_step cfg2 s2) := by
  have hgp : cfg.global_params = cfg2.global_params := hcfg.1
  have hsel : cfg.selected_phases = cfg2.selected_phases := hcfg.2.1
  have hqs := hcfg.2.2.1
  have hpe := hcfg.2.2.2
  have hrel1 : StateRel p (check_phase_deployments cfg s)
      (check_phase_deployments cfg2 s2) := by
    have h := checkFold_rel cfg cfg2 p hcfg cfg.selected_phases hrel hv
    show StateRel p (List.foldl (check_step cfg) s cfg.selected_phases)
      (List.foldl (check_step cfg2) s2 cfg2.selected_phases)
    rw [← hsel]
    exact h
  have hdep1 : ∀ r ∈ (check_phase_deployments cfg s).active_phases,
      r.deployment_time ≤ (check_phase_deployments cfg s).current_time := by
    obtain ⟨new, hact, hprops⟩ := checkFold_active cfg cfg.selected_phases s
    intro r hr
    rw [← (check_frame cfg s).ct]
    have hr2 : r ∈ s.active_phases ++ new := by
      have h1 : (check_phase_deployments cfg s).active_phases =
          s.active_phases ++ new := hact
      rw [← h1]
      exact hr
    rcases List.mem_append.mp hr2 with hm | hm
    · exact hdep r hm
    · exact le_of_eq (hprops r hm).1
  have hrow : drag_row (check_phase_deployments cfg s) =
      drag_row (check_phase_deployments cfg2 s2) :=
    drag_row_rel p hrel1.ct hrel1.ca hrel1.cv hrel1.act hdep1
  have hsum : ((check_phase_deployments cfg s).active_phases.map
        (phase_drag (check_phase_deployments cfg s))).sum =
      ((check_phase_deployments cfg2 s2).active_phases.map
        (phase_drag (check_phase_deployments cfg2 s2))).sum :=
    drag_sum_rel p hrel1.ct hrel1.ca hrel1.cv hrel1.act hdep1
  have hmass : get_current_mass cfg (check_phase_deployments cfg s) =
      get_current_mass cfg2 (check_phase_deployments cfg2 s2) := by
    unfold get_current_mass
    rcases hA : (check_phase_deployments cfg s).active_phases with _ | ⟨r, t⟩
    · have hB : (check_phase_deployments cfg2 s2).active_phases = [] := by
        have hF := hrel1.act
        rw [hA] at hF
        exact List.forall₂_nil_left_iff.mp hF
      rw [hB]
      show (cfg.phase_params (cfg.selected_phases.headD "")).payload_mass =
        (cfg2.phase_params (cfg2.selected_phases.headD "")).payload_mass
      rw [← hsel]
      by_cases hq : cfg.selected_phases.headD "" = p
      · rw [hq]
        exact hpe.2.2.2.2
      · rw [hqs _ hq]
    · have hF := hrel1.act
      rw [hA] at hF
      obtain ⟨r2, t2, hr, ht, hB⟩ := List.forall₂_cons_left_iff.mp hF
      rw [hB]
      show r.params.payload_mass = r2.params.payload_mass
      by_cases hq : r.phase = p
      · exact ((hr.prp hq).1).2.2.2.2
      · rw [hr.prs hq]
  have hvel : (sim_step cfg s).current_velocity =
      (sim_step cfg2 s2).current_velocity := by
    rw [sim_step_current_velocity_eq, sim_step_current_velocity_eq,
      hrel.cv, hsum, hmass, hgp]
  have hca2 : (sim_step cfg s).current_altitude =
      (sim_step cfg2 s2).current_altitude := by
    rw [sim_step_current_altitude, sim_step_current_altitude, hrel.ca, hvel, hgp]
  have hch2 : (sim_step cfg s).current_horizontal_pos =
      (sim_step cfg2 s2).current_horizontal_pos := by
    rw [sim_step_current_hpos_eq, sim_step_current_hpos_eq, hrel.ch, hvel, hgp]
  have hct2 : (sim_step cfg s).current_time = (sim_step cfg2 s2).current_time := by
    rw [sim_step_current_time, sim_step_current_time, hrel.ct, hgp]
  refine ⟨?_, ?_, ?_, ?_, ?_, ?_, hct2, hca2, hvel, hch2, ?_, ?_, ?_, ?_⟩
  · rw [sim_step_time_series, sim_step_time_series, hrel.tm, hrel.ct]
  · rw [sim_step_altitude_series, sim_step_altitude_series, hrel.al, hca2]
  · rw [sim_step_velocity_series, sim_step_velocity_series, hrel.ve, hvel]
  · rw [sim_step_total_series, sim_step_total_series, hrel.td, hsum]
  · funext q
    rw [sim_step_pdf, sim_step_pdf, hrel.pdf, hrow, hsel]
  · rw [sim_step_hpos_series, sim_step_hpos_series, hrel.hp, hch2]
  · exact hrel1.act
  · exact hrel1.dep
  · exact hrel1.dtim
  · exact hrel1.itim

/-- The constructor states of two configurations with equal global
    parameters are related. -/
lemma init_rel (cfg cfg2 : Config) (p : String)
    (hgp : cfg.global_params = cfg2.global_params) :
    StateRel p (init_state cfg) (init_state cfg2) := by
  refine ⟨rfl, rfl, rfl, rfl, rfl, rfl, rfl, ?_, ?_, rfl, List.Forall₂.nil,
    rfl, rfl, rfl⟩
  · show cfg.global_params.initial_altitude = cfg2.global_params.initial_altitude
    rw [hgp]
  · show cfg.global_params.initial_velocity = cfg2.global_params.initial_velocity
    rw [hgp]

/-- Claim C9: a phase that deploys at nonpositive velocity records inflation
    time 0; drag with inflation time 0 is the full unscaled base force at
    every nonnegative time since deployment and positive velocity; and two
    runs differing only in the reefing factor of such a phase produce
    identical states, series and compiled results. -/
theorem reefing_skip_C9 (cfg cfg2 : Config) (p : String)
    (hcfg : ConfigEqExceptReefing cfg cfg2 p)
    (hdt : 0 ≤ cfg.global_params.time_step)
    (hdepv : ∀ n, p ∉ (sim_states cfg n).deployed_phases →
      (sim_states cfg n).current_altitude ≤
        (cfg.phase_params p).deployment_altitude →
      (sim_states cfg n).current_velocity ≤ 0) :
    (∀ nf D v, v ≤ 0 → calculate_inflation_time nf D v = 0) ∧
    (∀ alt v D Cd r t, 0 < v → 0 ≤ t →
      calculate_drag_force alt v D Cd r t 0 =
        0.5 * calculate_air_density alt * v ^ 2 * Cd * (Real.pi * (D / 2) ^ 2)) ∧
    (∀ n, StateRel p (sim_states cfg n) (sim_states cfg2 n)) ∧
    (∀ n, compile_results cfg (sim_states cfg n) =
        compile_results cfg2 (sim_states cfg2 n)) := by
  have hrel : ∀ n, StateRel p (sim_states cfg n) (sim_states cfg2 n) := by
    intro n
    induction n with
    | zero => exact init_rel cfg cfg2 p hcfg.1
    | succ n ih =>
      exact sim_step_rel cfg cfg2 p hcfg ih (depLe_sim cfg hdt n) (hdepv n)
  refine ⟨fun nf D v hv => inflation_time_zero_velocity nf D v hv, ?_, hrel, ?_⟩
  · intro alt v D Cd r t hv ht
    rw [calculate_drag_force_eq, if_neg (not_le.mpr hv), if_neg (not_lt.mpr ht)]
  · intro n
    have h := hrel n
    unfold compile_results
    rw [h.td, h.ve, h.tm, h.hp, h.al, hcfg.2.1, h.pdf, h.dtim, h.itim]

/-- Global parameters of the reefing irrelevance example. -/
noncomputable def gpC9 : GlobalParams :=
  { initial_altitude := 10, initial_velocity := 0, time_step := 1,
    descent_angle := 0 }

/-- Same parameters as the ceiling example phase but a different reefing
    factor. -/
noncomputable def mainParamsC9b : PhaseParams :=
  { diameter := 20, drag_coefficient := 1.5, deployment_altitude := 1000,
    inflation_index := 5, payload_mass := 100, reefing_factor := 0.7 }

noncomputable def cfgC9a : Config :=
  { global_params := gpC9,
    phase_params := fun q => if q = "Main" then mainParamsC3 else mainParamsC3,
    selected_phases := ["Main"] }

noncomputable def cfgC9b : Config :=
  { global_params := gpC9,
    phase_params := fun q => if q = "Main" then mainParamsC9b else mainParamsC3,
    selected_phases := ["Main"] }

lemma c9_cfg_rel : ConfigEqExceptReefing cfgC9a cfgC9b "Main" := by
  refine ⟨rfl, rfl, ?_, ?_⟩
  · intro q hq
    show (if q = "Main" then mainParamsC3 else mainParamsC3) =
      (if q = "Main" then mainParamsC9b else mainParamsC3)
    rw [if_neg hq, if_neg hq]
  · show ParamsEqExceptReefing
      (if ("Main" : String) = "Main" then mainParamsC3 else mainParamsC3)
      (if ("Main" : String) = "Main" then mainParamsC9b else mainParamsC3)
    rw [if_pos rfl, if_pos rfl]
    exact ⟨rfl, rfl, rfl, rfl, rfl⟩

lemma c9_main_deployed :
    ∀ n, "Main" ∈ (sim_states cfgC9a (n + 1)).deployed_phases := by
  intro n
  induction n with
  | zero =>
    rw [show sim_states cfgC9a 1 = sim_step cfgC9a (sim_states cfgC9a 0) from rfl,
      sim_step_deployed_mem]
    refine Or.inr ⟨List.mem_singleton_self _, ?_⟩
    have hth : (cfgC9a.phase_params "Main").deployment_altitude = 1000 := by
      show (if ("Main" : String) = "Main" then
        mainParamsC3 else mainParamsC3).deployment_altitude = 1000
      rw [if_pos rfl]
      rfl
    show (10 : ℝ) ≤ (cfgC9a.phase_params "Main").deployment_altitude
    rw [hth]
    norm_num
  | succ n ih => exact deployed_mono cfgC9a "Main" (n + 1) ih

lemma c9_hdep : ∀ n, "Main" ∉ (sim_states cfgC9a n).deployed_phases →
    (sim_states cfgC9a n).current_altitude ≤
      (cfgC9a.phase_params "Main").deployment_altitude →
    (sim_states cfgC9a n).current_velocity ≤ 0 := by
  intro n
  cases n with
  | zero => intro _ _; exact le_of_eq rfl
  | succ n => intro hnd _; exact absurd (c9_main_deployed n) hnd

/-- Witness for claim C9: two concrete configurations differing only in the
    reefing factor of the phase deployed at velocity 0 compile to the same
    results. -/
theorem reefing_skip_C9_witness :
    ConfigEqExceptReefing cfgC9a cfgC9b "Main" ∧
    (0 : ℝ) ≤ cfgC9a.global_params.time_step ∧
    compile_results cfgC9a (sim_states cfgC9a 3) =
      compile_results cfgC9b (sim_states cfgC9b 3) :=
  ⟨c9_cfg_rel, by show (0 : ℝ) ≤ 1; norm_num,
    (reefing_skip_C9 cfgC9a cfgC9b "Main" c9_cfg_rel
      (by show (0 : ℝ) ≤ 1; norm_num) c9_hdep).2.2.2 3⟩

/-- Witness for claim C2 at a concrete configuration and step. -/
theorem single_deployment_C2_witness :
    ("Main" ∈ cfgC3.selected_phases) ∧
    ("Main" ∈ (sim_states cfgC3 1).deployed_phases ↔
      ∃ k, k < 1 ∧ (sim_states cfgC3 k).current_altitude ≤
        (cfgC3.phase_params "Main").deployment_altitude) :=
  ⟨List.mem_singleton_self _,
    (single_deployment_C2 cfgC3 "Main" (List.mem_singleton_self _)).2.1 1⟩

/-- Witness for claim C5 at a concrete configuration and step. -/
theorem current_mass_C5_witness :
    0 < cfgC3.global_params.time_step ∧ cfgC3.selected_phases.Nodup ∧
    get_current_mass cfgC3 (sim_states cfgC3 1) = c3_record.params.payload_mass := by
  have hdt : 0 < cfgC3.global_params.time_step := by
    show (0 : ℝ) < 1
    norm_num
  have hnd : cfgC3.selected_phases.Nodup := by
    show (["Main"] : List String).Nodup
    simp
  have hhead : (sim_states cfgC3 1).active_phases.head? = some c3_record := by
    rw [show (1 : ℕ) = 0 + 1 from rfl, c3_closed 0]
    rfl
  exact ⟨hdt, hnd, ((current_mass_C5 cfgC3 hdt hnd 1).2 c3_record hhead).1⟩

lemma c6_run2 : run_aux cfgC3 2 (init_state cfgC3) = c3_state 2 := by
  have halt0 : 0 < (init_state cfgC3).current_altitude := by
    show (0 : ℝ) < 100
    norm_num
  have halt1 : 0 < (c3_state 1).current_altitude := by
    show (0 : ℝ) < 100
    norm_num
  have h1le : ¬ (10000 : ℝ) < (c3_state 1).current_time := by
    show ¬ (10000 : ℝ) < ((1 : ℕ) : ℝ)
    push_cast
    norm_num
  have h2le : ¬ (10000 : ℝ) < (c3_state (1 + 1)).current_time := by
    show ¬ (10000 : ℝ) < ((1 + 1 : ℕ) : ℝ)
    push_cast
    norm_num
  show (if 0 < (init_state cfgC3).current_altitude then
      if 10000 < (sim_step cfgC3 (init_state cfgC3)).current_time then
        sim_step cfgC3 (init_state cfgC3)
      else run_aux cfgC3 1 (sim_step cfgC3 (init_state cfgC3))
    else init_state cfgC3) = c3_state 2
  rw [if_pos halt0, c3_sim_one, if_neg h1le]
  show (if 0 < (c3_state 1).current_altitude then
      if 10000 < (sim_step cfgC3 (c3_state 1)).current_time then
        sim_step cfgC3 (c3_state 1)
      else run_aux cfgC3 0 (sim_step cfgC3 (c3_state 1))
    else c3_state 1) = c3_state 2
  rw [if_pos halt1, c3_step 1 le_rfl, if_neg h2le]
  rfl

/-- Witness for claim C6 on a concrete two step run. -/
theorem monotonic_altitude_C6_witness :
    0 < cfgC3.global_params.time_step ∧
    (run_aux cfgC3 2 (init_state cfgC3)).altitude.get? 0 = some 100 ∧
    (run_aux cfgC3 2 (init_state cfgC3)).altitude.get? 1 = some 100 ∧
    (100 : ℝ) ≤ 100 := by
  have hdt : 0 < cfgC3.global_params.time_step := by
    show (0 : ℝ) < 1
    norm_num
  have hx : (run_aux cfgC3 2 (init_state cfgC3)).altitude.get? 0 = some 100 := by
    rw [c6_run2]
    rfl
  have hy : (run_aux cfgC3 2 (init_state cfgC3)).altitude.get? (0 + 1) = some 100 := by
    rw [c6_run2]
    rfl
  exact ⟨hdt, hx, hy, monotonic_altitude_C6 cfgC3 2 hdt 0 100 100 hx hy⟩

/-- Witness for claim C10 at a concrete configuration and index. -/
theorem snapshot_alignment_C10_witness :
    (0 : ℕ) < 1 ∧ (sim_states cfgC3 1).time.get? 0 =
      some (((0 : ℕ) : ℝ) * cfgC3.global_params.time_step) :=
  ⟨Nat.zero_lt_one, (snapshot_alignment_C10 cfgC3 1).1 0 Nat.zero_lt_one⟩

end ParachuteSim
